import Mathlib

/-!
Ecosystem sketch (`src/sketch.js`): shallow embedding.

Numbers are elements of an arbitrary linearly ordered field `α`; the square root
used by the vector library is a parameter `sqrt`. The first embedding computes
exactly. Vectors are planar: every vector of the sketch is built by
`createVector(x, y)`, `createVector()` or `p5.Vector.random2D()`, so the third
component is `0` throughout and is left out. Methods that assign to `this`
return the new receiver; arrays are lists, `splice(i, 1)` is `List.eraseIdx`,
`push` appends.

The numeric bounds (velocity, steering force, genome perturbation) depend on how
results are rounded. For them the steering code is embedded a second time, in
`Rounded`, with every arithmetic result passed through a rounding `fl`; `fl64`
and `sqrt64` are the double-precision rounding and square root.
-/

set_option autoImplicit false

namespace Sketch

/-! ## Vectors -/

/-- Modelled from the spec: the vector type of the drawing library
(`createVector`, `p5.Vector`) is not under `src/`; a pair of coordinates. -/
structure Vec (α : Type) where
  x : α
  y : α
deriving DecidableEq, Repr

/-- What the library's square root is assumed to do on the non-negative numbers. -/
def SqrtSpec {α : Type} [LinearOrderedField α] (sqrt : α → α) : Prop :=
  ∀ x : α, 0 ≤ x → 0 ≤ sqrt x ∧ sqrt x * sqrt x = x

namespace Vec

variable {α : Type} [LinearOrderedField α]

/-- Modelled from the spec: `createVector(0, 0)` / `createVector()`. -/
def zero : Vec α := ⟨0, 0⟩

/-- Modelled from the spec: vector addition (`v.add(w)`). -/
def add (v w : Vec α) : Vec α := ⟨v.x + w.x, v.y + w.y⟩

/-- Modelled from the spec: vector subtraction (`p5.Vector.sub(v, w)`). -/
def sub (v w : Vec α) : Vec α := ⟨v.x - w.x, v.y - w.y⟩

/-- Modelled from the spec: scaling (`v.mult(n)`). -/
def mult (v : Vec α) (n : α) : Vec α := ⟨v.x * n, v.y * n⟩

/-- Modelled from the spec: division by a scalar (`v.div(n)`), which leaves the
vector alone when the divisor is `0`. -/
def div (v : Vec α) (n : α) : Vec α := if n = 0 then v else ⟨v.x / n, v.y / n⟩

/-- Modelled from the spec: squared magnitude (`v.magSq()`). -/
def magSq (v : Vec α) : α := v.x * v.x + v.y * v.y

/-- Modelled from the spec: magnitude (`v.mag()`), the square root of `magSq`. -/
def mag (sqrt : α → α) (v : Vec α) : α := sqrt (magSq v)

/-- Modelled from the spec: distance (`v.dist(w)`), the magnitude of `w - v`. -/
def dist (sqrt : α → α) (v w : Vec α) : α := mag sqrt (sub w v)

/-- Modelled from the spec: `v.normalize()`, which scales by `1 / mag` unless the
magnitude is `0`. -/
def normalize (sqrt : α → α) (v : Vec α) : Vec α :=
  let len := mag sqrt v
  if len ≠ 0 then mult v (1 / len) else v

/-- Modelled from the spec: magnitude-setting (`v.setMag(n)`): normalize, then
scale by `n`. -/
def setMag (sqrt : α → α) (v : Vec α) (n : α) : Vec α := mult (normalize sqrt v) n

/-- Modelled from the spec: magnitude-limiting (`v.limit(max)`): when the squared
magnitude exceeds `max * max` the vector is divided by its magnitude and scaled
by `max`. -/
def limit (sqrt : α → α) (v : Vec α) (max : α) : Vec α :=
  let mSq := magSq v
  if mSq > max * max then mult (div v (sqrt mSq)) max else v

end Vec

/-! ## Creatures -/

/-- The genome object literal `dna` of a creature. -/
structure DNA (α : Type) where
  maxSpeed : α
  maxForce : α
  vision : α
  reproductionRate : α
deriving DecidableEq, Repr

/-- The fields assigned by `Creature`'s constructor. -/
structure Creature (α : Type) where
  pos : Vec α
  vel : Vec α
  acc : Vec α
  dna : DNA α
  health : α
deriving DecidableEq, Repr

/-- The fields assigned by `Predator`'s constructor. -/
structure Predator (α : Type) where
  pos : Vec α
  vel : Vec α
  acc : Vec α
  maxSpeed : α
  maxForce : α
  r : α
  health : α
deriving DecidableEq, Repr

/-- The body shared by `Creature.edges` and `Predator.edges`: four `if`s run in
sequence on `pos.x` and then on `pos.y`; `width` and `height` are the globals of
the drawing surface. -/
def edgesPos {α : Type} [LinearOrderedField α] (width height : α) (pos : Vec α) : Vec α :=
  let x1 := if pos.x > width then 0 else pos.x
  let x2 := if x1 < 0 then width else x1
  let y1 := if pos.y > height then 0 else pos.y
  let y2 := if y1 < 0 then height else y1
  ⟨x2, y2⟩

/-- A running nearest-neighbour search: `record` (`none` is `Infinity`) and
`closest` (`none` is `null`). -/
structure Scan (α β : Type) where
  record : Option α
  closest : Option β
deriving Repr

/-- The test `d < record`, where `record` may still be `Infinity`. -/
def ltRecord {α : Type} [LinearOrderedField α] (d : α) : Option α → Bool
  | none => true
  | some r => decide (d < r)

/-- The test `record < bound` for a finite `bound` (`Infinity < bound` fails). -/
def recordLt {α : Type} [LinearOrderedField α] (record : Option α) (bound : α) : Bool :=
  match record with
  | none => false
  | some r => decide (r < bound)

/-- The loop `for (let i = n - 1; i >= 0; i--)` of `Creature.eat` and
`Predator.hunt`, on the positions of the list; `n` is `i + 1`. An index outside
the list is not met (the loop starts at `length - 1`). -/
def scanDown {α : Type} [LinearOrderedField α] (sqrt : α → α) (pos : Vec α)
    (list : List (Vec α)) : Nat → Scan α Nat → Scan α Nat
  | 0, s => s
  | i + 1, s =>
    match list[i]? with
    | none => scanDown sqrt pos list i s
    | some p =>
      let d := Vec.dist sqrt pos p
      scanDown sqrt pos list i (if ltRecord d s.record then ⟨some d, some i⟩ else s)

namespace Creature

variable {α : Type} [LinearOrderedField α]

/-- `Creature.applyForce`. -/
def applyForce (c : Creature α) (force : Vec α) : Creature α :=
  { c with acc := Vec.add c.acc force }

/-- `Creature.seek`. -/
def seek (sqrt : α → α) (c : Creature α) (target : Vec α) : Vec α :=
  let desired := Vec.sub target c.pos
  let desired := Vec.setMag sqrt desired c.dna.maxSpeed
  let steer := Vec.sub desired c.vel
  Vec.limit sqrt steer c.dna.maxForce

/-- The `for ... of` loop of `Creature.flee`. -/
def fleeScan (sqrt : α → α) (c : Creature α) :
    List (Predator α) → Scan α (Predator α) → Scan α (Predator α)
  | [], s => s
  | predator :: rest, s =>
    let d := Vec.dist sqrt c.pos predator.pos
    fleeScan sqrt c rest (if ltRecord d s.record then ⟨some d, some predator⟩ else s)

/-- `Creature.flee`. -/
def flee (sqrt : α → α) (c : Creature α) (predators : List (Predator α)) : Vec α :=
  let s := fleeScan sqrt c predators ⟨none, none⟩
  match s.closest with
  | some closest =>
    if recordLt s.record c.dna.vision then
      let desired := Vec.sub c.pos closest.pos
      let desired := Vec.setMag sqrt desired c.dna.maxSpeed
      let steer := Vec.sub desired c.vel
      Vec.limit sqrt steer c.dna.maxForce
    else Vec.zero
  | none => Vec.zero

/-- What `Creature.eat` leaves behind: the receiver, the list and the returned
force. -/
structure EatResult (α : Type) where
  self : Creature α
  list : List (Vec α)
  force : Vec α

/-- `Creature.eat`. `list.splice(closest, 1)` with `closest` still `null` would
remove index `0`. -/
def eat (sqrt : α → α) (c : Creature α) (list : List (Vec α)) (nutrition : α) :
    EatResult α :=
  let s := scanDown sqrt c.pos list list.length ⟨none, none⟩
  if recordLt s.record 5 then
    ⟨{ c with health := c.health + nutrition }, list.eraseIdx (s.closest.getD 0), Vec.zero⟩
  else
    match s.closest with
    | some closest =>
      if recordLt s.record c.dna.vision then
        match list[closest]? with
        | some target => ⟨c, list, seek sqrt c target⟩
        | none => ⟨c, list, Vec.zero⟩
      else ⟨c, list, Vec.zero⟩
    | none => ⟨c, list, Vec.zero⟩

/-- `Creature.behaviors`: returns the receiver and the food list. -/
def behaviors (sqrt : α → α) (c : Creature α) (predators : List (Predator α))
    (food : List (Vec α)) : Creature α × List (Vec α) :=
  let steerFlee := flee sqrt c predators
  let e := eat sqrt c food 0.3
  let steerFlee := Vec.mult steerFlee 5
  let c1 := applyForce e.self steerFlee
  let c2 := applyForce c1 e.force
  (c2, e.list)

/-- `Creature.edges`. -/
def edges (width height : α) (c : Creature α) : Creature α :=
  { c with pos := edgesPos width height c.pos }

/-- `Creature.update`. -/
def update (sqrt : α → α) (width height : α) (c : Creature α) : Creature α :=
  let c := { c with health := c.health - 0.005 }
  let c := { c with vel := Vec.add c.vel c.acc }
  let c := { c with vel := Vec.limit sqrt c.vel c.dna.maxSpeed }
  let c := { c with pos := Vec.add c.pos c.vel }
  let c := { c with acc := Vec.mult c.acc 0 }
  edges width height c

/-- `Creature.isDead`. -/
def isDead (c : Creature α) : Bool := decide (c.health < 0)

end Creature

/-! ## Random draws

Every call of the library's random generator is an explicit outcome: a number
`u` with `0 ≤ u < 1` for `random(...)`, a vector for `p5.Vector.random2D()`. -/

/-- Modelled from the spec: `random(max)` of the drawing library, not under
`src/`: the raw outcome `u` scaled by `max`. -/
def random1 {α : Type} [LinearOrderedField α] (u max : α) : α := u * max

/-- Modelled from the spec: `random(min, max)` of the drawing library, not under
`src/`: the raw outcome `u` mapped into the interval from `min` to `max`. -/
def random2 {α : Type} [LinearOrderedField α] (u min max : α) : α := u * (max - min) + min

/-- The outcomes drawn by `Creature`'s constructor: `random2D()` and the four
draws of the default genome. -/
structure CtorDraws (α : Type) where
  vel : Vec α
  uSpeed : α
  uForce : α
  uVision : α
  uRate : α

/-- The outcomes drawn for one creature in one frame: `shouldReproduce`, the
four perturbations of `reproduce`, and the offspring's constructor. -/
structure Draws (α : Type) where
  repro : α
  mSpeed : α
  mForce : α
  mVision : α
  mRate : α
  ctor : CtorDraws α

/-- The outcomes of one frame: the food spawn and, for the creature at index `i`
of the creature loop, `creature i`. -/
structure FrameDraws (α : Type) where
  spawn : α
  spawnX : α
  spawnY : α
  creature : Nat → Draws α

namespace Creature

variable {α : Type} [LinearOrderedField α]

/-- `Creature`'s constructor; `dna || {...}` takes the argument when one is
passed. -/
def new (x y : α) (dna : Option (DNA α)) (d : CtorDraws α) : Creature α :=
  { pos := ⟨x, y⟩
    vel := d.vel
    acc := Vec.zero
    dna := dna.getD
      { maxSpeed := random2 d.uSpeed 2 5
        maxForce := random2 d.uForce 0.1 0.5
        vision := random2 d.uVision 50 150
        reproductionRate := random2 d.uRate 0.001 0.005 }
    health := 1 }

/-- `Creature.shouldReproduce`. -/
def shouldReproduce (c : Creature α) (d : Draws α) : Bool :=
  decide (random1 d.repro 1 < c.dna.reproductionRate)

/-- `Creature.reproduce`: returns the receiver, which it does not assign to, and
the offspring. -/
def reproduce (c : Creature α) (d : Draws α) : Creature α × Creature α :=
  let childDNA : DNA α :=
    { maxSpeed := c.dna.maxSpeed + random2 d.mSpeed (-0.1) 0.1
      maxForce := c.dna.maxForce + random2 d.mForce (-0.05) 0.05
      vision := c.dna.vision + random2 d.mVision (-10) 10
      reproductionRate := c.dna.reproductionRate + random2 d.mRate (-0.0005) 0.0005 }
  (c, new c.pos.x c.pos.y (some childDNA) d.ctor)

end Creature

/-! ## Predators -/

namespace Predator

variable {α : Type} [LinearOrderedField α]

/-- `Predator`'s constructor. -/
def new (x y : α) (vel : Vec α) : Predator α :=
  { pos := ⟨x, y⟩, vel := vel, acc := Vec.zero, maxSpeed := 3, maxForce := 0.2, r := 10,
    health := 1 }

/-- `Predator.applyForce`. -/
def applyForce (p : Predator α) (force : Vec α) : Predator α :=
  { p with acc := Vec.add p.acc force }

/-- `Predator.seek`. -/
def seek (sqrt : α → α) (p : Predator α) (target : Creature α) : Vec α :=
  let desired := Vec.sub target.pos p.pos
  let desired := Vec.setMag sqrt desired p.maxSpeed
  let steer := Vec.sub desired p.vel
  Vec.limit sqrt steer p.maxForce

/-- `Predator.hunt`: returns the receiver and the creature list. The loop reads
`creatures[i].pos`. -/
def hunt (sqrt : α → α) (p : Predator α) (creatures : List (Creature α)) :
    Predator α × List (Creature α) :=
  let s := scanDown sqrt p.pos (creatures.map Creature.pos) creatures.length ⟨none, none⟩
  if recordLt s.record 5 then
    ({ p with health := p.health + 0.5 }, creatures.eraseIdx (s.closest.getD 0))
  else
    match s.closest with
    | some closest =>
      match creatures[closest]? with
      | some target => (applyForce p (seek sqrt p target), creatures)
      | none => (p, creatures)
    | none => (p, creatures)

/-- `Predator.edges`. -/
def edges (width height : α) (p : Predator α) : Predator α :=
  { p with pos := edgesPos width height p.pos }

/-- `Predator.update`. -/
def update (sqrt : α → α) (width height : α) (p : Predator α) : Predator α :=
  let p := { p with health := p.health - 0.01 }
  let p := { p with vel := Vec.add p.vel p.acc }
  let p := { p with vel := Vec.limit sqrt p.vel p.maxSpeed }
  let p := { p with pos := Vec.add p.pos p.vel }
  let p := { p with acc := Vec.mult p.acc 0 }
  edges width height p

/-- `Predator.isDead`. -/
def isDead (p : Predator α) : Bool := decide (p.health < 0)

end Predator

/-! ## The frame -/

/-- The three global arrays. -/
structure World (α : Type) where
  creatures : List (Creature α)
  predators : List (Predator α)
  food : List (Vec α)

section Frame

variable {α : Type} [LinearOrderedField α]

/-- The food spawn at the top of `draw`. -/
def spawnFood (width height : α) (rnd : FrameDraws α) (w : World α) : World α :=
  if random1 rnd.spawn 1 < 0.1 then
    { w with food := w.food ++ [⟨random1 rnd.spawnX width, random1 rnd.spawnY height⟩] }
  else w

/-- The creature loop of `draw`, `for (let i = creatures.length - 1; i >= 0; i--)`,
with `n = i + 1`. `creatures[i]` is an object of the array, so what `behaviors`
and `update` assign is written back at index `i`. `display` only draws. -/
def creatureLoop (sqrt : α → α) (width height : α) (rnd : FrameDraws α) :
    Nat → World α → World α
  | 0, w => w
  | i + 1, w =>
    match w.creatures[i]? with
    | none => creatureLoop sqrt width height rnd i w
    | some c =>
      let b := Creature.behaviors sqrt c w.predators w.food
      let c := Creature.update sqrt width height b.1
      let creatures := w.creatures.set i c
      if c.isDead then
        creatureLoop sqrt width height rnd i
          { w with creatures := creatures.eraseIdx i, food := b.2 }
      else if c.shouldReproduce (rnd.creature i) then
        let r := c.reproduce (rnd.creature i)
        creatureLoop sqrt width height rnd i
          { w with creatures := (creatures.set i r.1) ++ [r.2], food := b.2 }
      else
        creatureLoop sqrt width height rnd i { w with creatures := creatures, food := b.2 }

/-- The predator loop of `draw`, with `n = i + 1`. -/
def predatorLoop (sqrt : α → α) (width height : α) : Nat → World α → World α
  | 0, w => w
  | i + 1, w =>
    match w.predators[i]? with
    | none => predatorLoop sqrt width height i w
    | some p =>
      let h := Predator.hunt sqrt p w.creatures
      let p := Predator.update sqrt width height h.1
      let predators := w.predators.set i p
      if p.isDead then
        predatorLoop sqrt width height i
          { w with predators := predators.eraseIdx i, creatures := h.2 }
      else
        predatorLoop sqrt width height i { w with predators := predators, creatures := h.2 }

/-- The creature pass of `draw` (lines 31-41). -/
def creaturePass (sqrt : α → α) (width height : α) (rnd : FrameDraws α) (w : World α) :
    World α :=
  creatureLoop sqrt width height rnd w.creatures.length w

/-- The predator pass of `draw` (lines 43-50). -/
def predatorPass (sqrt : α → α) (width height : α) (w : World α) : World α :=
  predatorLoop sqrt width height w.predators.length w

/-- One call of `draw`: spawn, creature pass, predator pass. The calls that only
paint (`background`, `ellipse`, `display`) are left out. -/
def draw (sqrt : α → α) (width height : α) (rnd : FrameDraws α) (w : World α) : World α :=
  predatorPass sqrt width height (creaturePass sqrt width height rnd (spawnFood width height rnd w))

end Frame

/-! ## Predicates used to state the results -/

/-- What the downward scan knows once the indices `n ≤ k < N` have been visited:
either nothing was visited and the state is still `Infinity` / `null`, or the
state holds an index `j` of that range at minimal distance, every visited index
above `j` being strictly farther. -/
def ScanGood {α : Type} [LinearOrderedField α] (sqrt : α → α) (pos : Vec α)
    (list : List (Vec α)) (N n : Nat) (s : Scan α Nat) : Prop :=
  (s.record = none ∧ s.closest = none ∧ n = N) ∨
  ∃ (j : Nat) (q : Vec α), n ≤ j ∧ j < N ∧ list[j]? = some q ∧
    s.record = some (Vec.dist sqrt pos q) ∧ s.closest = some j ∧
    ∀ (k : Nat) (p : Vec α), n ≤ k → k < N → list[k]? = some p →
      Vec.dist sqrt pos q ≤ Vec.dist sqrt pos p ∧
      (j < k → Vec.dist sqrt pos q < Vec.dist sqrt pos p)

/-- What the forward scan of `Creature.flee` knows once the predators `seen` have
been visited: either none was visited and the state is still `Infinity` /
`null`, or the state holds the predator at an index `j` of `seen` at minimal
distance, every visited index below `j` being strictly farther. -/
def FleeGood {α : Type} [LinearOrderedField α] (sqrt : α → α) (c : Creature α)
    (seen : List (Predator α)) (s : Scan α (Predator α)) : Prop :=
  (s.record = none ∧ s.closest = none ∧ seen = []) ∨
  ∃ (j : Nat) (q : Predator α), seen[j]? = some q ∧
    s.record = some (Vec.dist sqrt c.pos q.pos) ∧ s.closest = some q ∧
    ∀ (k : Nat) (t : Predator α), seen[k]? = some t →
      Vec.dist sqrt c.pos q.pos ≤ Vec.dist sqrt c.pos t.pos ∧
      (k < j → Vec.dist sqrt c.pos q.pos < Vec.dist sqrt c.pos t.pos)

/-! ## The passes as folds over a snapshot

The specification asks for a traversal that is safe under removal and insertion
and names "iterate over a snapshot and build a new collection". The two
definitions below are that reading: each element of the snapshot is visited
once, the later elements first, and the results are collected in new lists. -/

/-- What a snapshot traversal of the creatures builds: every creature of the
snapshot after `behaviors` and `update`, in the snapshot's order; the offspring,
in order of birth; the food left; and the number of creatures whose health `eat`
raised. -/
structure CreatureSnapshot (α : Type) where
  updated : List (Creature α)
  offspring : List (Creature α)
  food : List (Vec α)
  credited : Nat

/-- The creature pass in the words of the specification: visit the snapshot
`c :: cs` (whose first element has index `i` in the global array) from its last
element to its first, apply `behaviors` and `update` once to each, and collect
an offspring for each survivor that reproduces. -/
def snapshotCreaturePass {α : Type} [LinearOrderedField α] (sqrt : α → α) (width height : α)
    (rnd : FrameDraws α) (predators : List (Predator α)) :
    Nat → List (Creature α) → List (Vec α) → CreatureSnapshot α
  | _, [], food => ⟨[], [], food, 0⟩
  | i, c :: cs, food =>
    let r := snapshotCreaturePass sqrt width height rnd predators (i + 1) cs food
    let b := Creature.behaviors sqrt c predators r.food
    let c1 := Creature.update sqrt width height b.1
    { updated := c1 :: r.updated
      offspring :=
        if !c1.isDead && c1.shouldReproduce (rnd.creature i) then
          r.offspring ++ [(c1.reproduce (rnd.creature i)).2]
        else r.offspring
      food := b.2
      credited :=
        if (Creature.eat sqrt c r.food 0.3).self.health = c.health then r.credited
        else r.credited + 1 }

/-- What a snapshot traversal of the predators builds: every predator of the
snapshot after `hunt` and `update`, in the snapshot's order, and the creatures
left. -/
structure PredatorSnapshot (α : Type) where
  updated : List (Predator α)
  creatures : List (Creature α)

/-- The predator pass in the words of the specification: visit the snapshot from
its last element to its first and apply `hunt` and `update` once to each. -/
def snapshotPredatorPass {α : Type} [LinearOrderedField α] (sqrt : α → α) (width height : α) :
    List (Predator α) → List (Creature α) → PredatorSnapshot α
  | [], creatures => ⟨[], creatures⟩
  | p :: ps, creatures =>
    let r := snapshotPredatorPass sqrt width height ps creatures
    let h := Predator.hunt sqrt p r.creatures
    { updated := Predator.update sqrt width height h.1 :: r.updated
      creatures := h.2 }

end Sketch

namespace Sketch

/-! ## Double-precision arithmetic

The numbers of the sketch are IEEE binary64 values: every arithmetic operation
returns the representable number nearest to the exact result. The definitions
below are that rounding on the rationals, with an unbounded exponent range
(no overflow, no subnormal numbers), and the rounded square root. -/

/-- Round to the nearest integer, a tie going to the even one. -/
def roundHalfEven (q : ℚ) : ℤ :=
  if q - ⌊q⌋ < 1 / 2 then ⌊q⌋
  else if 1 / 2 < q - ⌊q⌋ then ⌊q⌋ + 1
  else if ⌊q⌋ % 2 = 0 then ⌊q⌋
  else ⌊q⌋ + 1

/-- The spacing of the binary64 numbers around `x`: `2 ^ (e - 52)` where
`2 ^ e ≤ |x| < 2 ^ (e + 1)`. -/
def ulp64 (x : ℚ) : ℚ := (2 : ℚ) ^ (Int.log 2 |x| - 52)

/-- Modelled from the spec: the spec's numbers are floating-point; `fl64 x` is
the binary64 number nearest to `x` (ties to even), the result every arithmetic
operation of the program returns for the exact value `x`. -/
def fl64 (x : ℚ) : ℚ :=
  if x = 0 then 0 else (roundHalfEven (x / ulp64 x) : ℚ) * ulp64 x

/-- Modelled from the spec: `Math.sqrt` on binary64 numbers, the representable
number nearest to the real square root. With `u` the spacing of the result's
binade and `M = ⌊√x / u⌋`, the result is `M * u` or `(M + 1) * u` according to the
side of the midpoint `(M + 1/2) * u` on which `√x` lies. Arguments below zero,
which the sketch never passes, give `0`. -/
def sqrt64 (x : ℚ) : ℚ :=
  if x ≤ 0 then 0
  else
    let u : ℚ := (2 : ℚ) ^ (Int.log 2 x / 2 - 52)
    let M : ℕ := Nat.sqrt ⌊x / (u * u)⌋₊
    if x < ((M : ℚ) + 1 / 2) * ((M : ℚ) + 1 / 2) * (u * u) then (M : ℚ) * u
    else ((M : ℚ) + 1) * u

/-- What rounded arithmetic is assumed to do: every rounded result is within the
relative error `ε` of the exact one, and the rounded square root, squared, is
not below the argument by more than that relative error twice. Exact arithmetic
has `ε = 0`; binary64 has `ε = 2 ^ (-53)`. -/
def RoundSpec {α : Type} [LinearOrderedField α] (ε : α) (fl : α → α) (sqrt : α → α) : Prop :=
  0 ≤ ε ∧ ε < 1 ∧ (∀ x : α, |fl x - x| ≤ ε * |x|) ∧
  ∀ x : α, 0 ≤ x → x * ((1 - ε) * (1 - ε)) ≤ sqrt x * sqrt x

/-! ## The steering code in rounded arithmetic

The same code as above with the result of every arithmetic operation passed
through the rounding `fl`, and every decimal literal rounded once; `sqrt` is the
rounded square root. With `fl` the identity these are the definitions above. -/

namespace Rounded

namespace Vec

variable {α : Type} [LinearOrderedField α]

/-- Modelled from the spec: vector addition (`v.add(w)`), rounded. -/
def add (fl : α → α) (v w : Sketch.Vec α) : Sketch.Vec α := ⟨fl (v.x + w.x), fl (v.y + w.y)⟩

/-- Modelled from the spec: vector subtraction (`p5.Vector.sub(v, w)`), rounded. -/
def sub (fl : α → α) (v w : Sketch.Vec α) : Sketch.Vec α := ⟨fl (v.x - w.x), fl (v.y - w.y)⟩

/-- Modelled from the spec: scaling (`v.mult(n)`), rounded. -/
def mult (fl : α → α) (v : Sketch.Vec α) (n : α) : Sketch.Vec α := ⟨fl (v.x * n), fl (v.y * n)⟩

/-- Modelled from the spec: division by a scalar (`v.div(n)`), rounded; a zero
divisor leaves the vector alone. -/
def div (fl : α → α) (v : Sketch.Vec α) (n : α) : Sketch.Vec α :=
  if n = 0 then v else ⟨fl (v.x / n), fl (v.y / n)⟩

/-- Modelled from the spec: squared magnitude (`v.magSq()`), `x * x + y * y` with
each product and the sum rounded. -/
def magSq (fl : α → α) (v : Sketch.Vec α) : α := fl (fl (v.x * v.x) + fl (v.y * v.y))

/-- Modelled from the spec: magnitude (`v.mag()`), the rounded square root of the
rounded `magSq`. -/
def mag (fl : α → α) (sqrt : α → α) (v : Sketch.Vec α) : α := sqrt (magSq fl v)

/-- Modelled from the spec: distance (`v.dist(w)`), the magnitude of `w - v`. -/
def dist (fl : α → α) (sqrt : α → α) (v w : Sketch.Vec α) : α := mag fl sqrt (sub fl w v)

/-- Modelled from the spec: `v.normalize()`, which scales by the rounded `1 / mag`
unless the magnitude is `0`. -/
def normalize (fl : α → α) (sqrt : α → α) (v : Sketch.Vec α) : Sketch.Vec α :=
  let len := mag fl sqrt v
  if len ≠ 0 then mult fl v (fl (1 / len)) else v

/-- Modelled from the spec: magnitude-setting (`v.setMag(n)`): normalize, then
scale by `n`. -/
def setMag (fl : α → α) (sqrt : α → α) (v : Sketch.Vec α) (n : α) : Sketch.Vec α :=
  mult fl (normalize fl sqrt v) n

/-- Modelled from the spec: magnitude-limiting (`v.limit(max)`): when the rounded
squared magnitude exceeds the rounded `max * max` the vector is divided by its
magnitude and scaled by `max`. -/
def limit (fl : α → α) (sqrt : α → α) (v : Sketch.Vec α) (max : α) : Sketch.Vec α :=
  let mSq := magSq fl v
  if mSq > fl (max * max) then mult fl (div fl v (sqrt mSq)) max else v

end Vec

variable {α : Type} [LinearOrderedField α]

/-- The downward loop of `Creature.eat` and `Predator.hunt` with rounded
distances. -/
def scanDown (fl : α → α) (sqrt : α → α) (pos : Sketch.Vec α)
    (list : List (Sketch.Vec α)) : Nat → Scan α Nat → Scan α Nat
  | 0, s => s
  | i + 1, s =>
    match list[i]? with
    | none => scanDown fl sqrt pos list i s
    | some p =>
      let d := Vec.dist fl sqrt pos p
      scanDown fl sqrt pos list i (if ltRecord d s.record then ⟨some d, some i⟩ else s)

/-- Modelled from the spec: `random(min, max)` of the drawing library in rounded
arithmetic, `rand * (max - min) + min`. -/
def random2 (fl : α → α) (u min max : α) : α := fl (fl (u * fl (max - min)) + min)

namespace Creature

/-- `Creature.seek` in rounded arithmetic. -/
def seek (fl : α → α) (sqrt : α → α) (c : Sketch.Creature α) (target : Sketch.Vec α) :
    Sketch.Vec α :=
  let desired := Vec.sub fl target c.pos
  let desired := Vec.setMag fl sqrt desired c.dna.maxSpeed
  let steer := Vec.sub fl desired c.vel
  Vec.limit fl sqrt steer c.dna.maxForce

/-- The `for ... of` loop of `Creature.flee` with rounded distances. -/
def fleeScan (fl : α → α) (sqrt : α → α) (c : Sketch.Creature α) :
    List (Sketch.Predator α) → Scan α (Sketch.Predator α) → Scan α (Sketch.Predator α)
  | [], s => s
  | predator :: rest, s =>
    let d := Vec.dist fl sqrt c.pos predator.pos
    fleeScan fl sqrt c rest (if ltRecord d s.record then ⟨some d, some predator⟩ else s)

/-- `Creature.flee` in rounded arithmetic. -/
def flee (fl : α → α) (sqrt : α → α) (c : Sketch.Creature α)
    (predators : List (Sketch.Predator α)) : Sketch.Vec α :=
  let s := fleeScan fl sqrt c predators ⟨none, none⟩
  match s.closest with
  | some closest =>
    if recordLt s.record c.dna.vision then
      let desired := Vec.sub fl c.pos closest.pos
      let desired := Vec.setMag fl sqrt desired c.dna.maxSpeed
      let steer := Vec.sub fl desired c.vel
      Vec.limit fl sqrt steer c.dna.maxForce
    else Sketch.Vec.zero
  | none => Sketch.Vec.zero

/-- `Creature.eat` in rounded arithmetic. -/
def eat (fl : α → α) (sqrt : α → α) (c : Sketch.Creature α) (list : List (Sketch.Vec α))
    (nutrition : α) : Sketch.Creature.EatResult α :=
  let s := scanDown fl sqrt c.pos list list.length ⟨none, none⟩
  if recordLt s.record 5 then
    ⟨{ c with health := fl (c.health + nutrition) }, list.eraseIdx (s.closest.getD 0),
      Sketch.Vec.zero⟩
  else
    match s.closest with
    | some closest =>
      if recordLt s.record c.dna.vision then
        match list[closest]? with
        | some target => ⟨c, list, seek fl sqrt c target⟩
        | none => ⟨c, list, Sketch.Vec.zero⟩
      else ⟨c, list, Sketch.Vec.zero⟩
    | none => ⟨c, list, Sketch.Vec.zero⟩

/-- `Creature.update` in rounded arithmetic. -/
def update (fl : α → α) (sqrt : α → α) (width height : α) (c : Sketch.Creature α) :
    Sketch.Creature α :=
  let c := { c with health := fl (c.health - fl 0.005) }
  let c := { c with vel := Vec.add fl c.vel c.acc }
  let c := { c with vel := Vec.limit fl sqrt c.vel c.dna.maxSpeed }
  let c := { c with pos := Vec.add fl c.pos c.vel }
  let c := { c with acc := Vec.mult fl c.acc 0 }
  Sketch.Creature.edges width height c

/-- `Creature.reproduce` in rounded arithmetic: returns the receiver and the
offspring. -/
def reproduce (fl : α → α) (c : Sketch.Creature α) (d : Draws α) :
    Sketch.Creature α × Sketch.Creature α :=
  let childDNA : DNA α :=
    { maxSpeed := fl (c.dna.maxSpeed + random2 fl d.mSpeed (-fl 0.1) (fl 0.1))
      maxForce := fl (c.dna.maxForce + random2 fl d.mForce (-fl 0.05) (fl 0.05))
      vision := fl (c.dna.vision + random2 fl d.mVision (-10) 10)
      reproductionRate :=
        fl (c.dna.reproductionRate + random2 fl d.mRate (-fl 0.0005) (fl 0.0005)) }
  (c, Sketch.Creature.new c.pos.x c.pos.y (some childDNA) d.ctor)

end Creature

namespace Predator

/-- `Predator.seek` in rounded arithmetic. -/
def seek (fl : α → α) (sqrt : α → α) (p : Sketch.Predator α) (target : Sketch.Creature α) :
    Sketch.Vec α :=
  let desired := Vec.sub fl target.pos p.pos
  let desired := Vec.setMag fl sqrt desired p.maxSpeed
  let steer := Vec.sub fl desired p.vel
  Vec.limit fl sqrt steer p.maxForce

/-- `Predator.update` in rounded arithmetic. -/
def update (fl : α → α) (sqrt : α → α) (width height : α) (p : Sketch.Predator α) :
    Sketch.Predator α :=
  let p := { p with health := fl (p.health - fl 0.01) }
  let p := { p with vel := Vec.add fl p.vel p.acc }
  let p := { p with vel := Vec.limit fl sqrt p.vel p.maxSpeed }
  let p := { p with pos := Vec.add fl p.pos p.vel }
  let p := { p with acc := Vec.mult fl p.acc 0 }
  Sketch.Predator.edges width height p

end Predator

end Rounded

end Sketch
namespace Sketch

/-! ## Arithmetic of the vector operations -/

section Helpers
variable {α : Type} [LinearOrderedField α]

theorem realSqrtSpec : SqrtSpec Real.sqrt :=
  fun x hx => ⟨Real.sqrt_nonneg x, Real.mul_self_sqrt hx⟩

theorem Vec.magSq_nonneg (v : Vec α) : 0 ≤ Vec.magSq v := by
  exact add_nonneg (mul_self_nonneg _) (mul_self_nonneg _)

theorem sqrt_lt_iff {sqrt : α → α} (hs : SqrtSpec sqrt) {x c : α}
    (hx : 0 ≤ x) (hc : 0 ≤ c) : sqrt x < c ↔ x < c * c := by
  obtain ⟨h0, h1⟩ := hs x hx
  constructor
  · intro h
    have := mul_self_lt_mul_self h0 h
    rwa [h1] at this
  · intro h
    by_contra hle
    push_neg at hle
    have := mul_self_le_mul_self hc hle
    rw [h1] at this
    exact absurd h (not_lt.mpr this)

theorem Vec.mag_nonneg {sqrt : α → α} (hs : SqrtSpec sqrt) (v : Vec α) : 0 ≤ Vec.mag sqrt v :=
  (hs _ (Vec.magSq_nonneg v)).1

end Helpers
end Sketch

namespace Sketch
section ScanLemmas
variable {α : Type} [LinearOrderedField α]

theorem scanDown_good (sqrt : α → α) (pos : Vec α) (list : List (Vec α)) (N : Nat)
    (hN : N ≤ list.length) :
    ∀ (n : Nat) (s : Scan α Nat), n ≤ N → ScanGood sqrt pos list N n s →
      ScanGood sqrt pos list N 0 (scanDown sqrt pos list n s) := by
  intro n
  induction n with
  | zero => intro s _ h; simpa [scanDown] using h
  | succ i ih =>
    intro s hn hg
    have hi : i < list.length := by omega
    have hget : list[i]? = some list[i] := List.getElem?_eq_getElem hi
    rw [scanDown, hget]
    apply ih _ (by omega)
    rcases hg with ⟨hr, hc, hnN⟩ | ⟨j, q, hj1, hj2, hq, hr, hc, hmin⟩
    · right
      refine ⟨i, list[i], le_rfl, by omega, hget, ?_, ?_, ?_⟩
      · simp [hr, ltRecord]
      · simp [hr, ltRecord]
      · intro k p hk1 hk2 hp
        have hk : k = i := by omega
        subst hk
        rw [hget] at hp
        cases hp
        exact ⟨le_rfl, fun h => absurd h (lt_irrefl _)⟩
    · right
      by_cases hlt : Vec.dist sqrt pos list[i] < Vec.dist sqrt pos q
      · refine ⟨i, list[i], le_rfl, by omega, hget, ?_, ?_, ?_⟩
        · simp [hr, ltRecord, hlt]
        · simp [hr, ltRecord, hlt]
        · intro k p hk1 hk2 hp
          rcases Nat.eq_or_lt_of_le hk1 with hk | hk
          · subst hk
            rw [hget] at hp
            cases hp
            exact ⟨le_rfl, fun h => absurd h (lt_irrefl _)⟩
          · have := (hmin k p (by omega) hk2 hp).1
            exact ⟨le_of_lt (lt_of_lt_of_le hlt this), fun _ => lt_of_lt_of_le hlt this⟩
      · refine ⟨j, q, by omega, hj2, hq, ?_, ?_, ?_⟩
        · simp [hr, ltRecord, hlt]
        · simp [hr, ltRecord, hlt, hc]
        · intro k p hk1 hk2 hp
          rcases Nat.eq_or_lt_of_le hk1 with hk | hk
          · subst hk
            rw [hget] at hp
            cases hp
            exact ⟨not_lt.mp hlt, fun h => by omega⟩
          · exact hmin k p (by omega) hk2 hp

theorem scanDown_spec (sqrt : α → α) (pos : Vec α) (list : List (Vec α)) :
    ScanGood sqrt pos list list.length 0 (scanDown sqrt pos list list.length ⟨none, none⟩) :=
  scanDown_good sqrt pos list list.length le_rfl list.length _ le_rfl
    (Or.inl ⟨rfl, rfl, rfl⟩)

end ScanLemmas
end Sketch

namespace Sketch
section Steering
variable {α : Type} [LinearOrderedField α]

theorem scan_record_far (sqrt : α → α) (pos : Vec α) (list : List (Vec α))
    (hfar : ∀ f ∈ list, 5 ≤ Vec.dist sqrt pos f) :
    recordLt (scanDown sqrt pos list list.length ⟨none, none⟩).record 5 = false := by
  rcases scanDown_spec sqrt pos list with ⟨hr, _, _⟩ | ⟨j, q, _, _, hq, hr, _, _⟩
  · simp [hr, recordLt]
  · have hmem : q ∈ list := List.getElem?_mem hq
    simp [hr, recordLt, hfar q hmem]

theorem Creature.eat_of_near (sqrt : α → α) (c : Creature α) (list : List (Vec α))
    (nutrition : α)
    (h : recordLt (scanDown sqrt c.pos list list.length ⟨none, none⟩).record 5 = true) :
    c.eat sqrt list nutrition =
      ⟨{ c with health := c.health + nutrition },
        list.eraseIdx ((scanDown sqrt c.pos list list.length ⟨none, none⟩).closest.getD 0),
        Vec.zero⟩ := by
  simp only [Creature.eat, h, if_true]

theorem Creature.eat_of_far (sqrt : α → α) (c : Creature α) (list : List (Vec α))
    (nutrition : α)
    (h : recordLt (scanDown sqrt c.pos list list.length ⟨none, none⟩).record 5 = false) :
    (c.eat sqrt list nutrition).self = c ∧ (c.eat sqrt list nutrition).list = list := by
  simp only [Creature.eat, h, Bool.false_eq_true, if_false]
  generalize scanDown sqrt c.pos list list.length ⟨none, none⟩ = s
  cases s.closest with
  | none => exact ⟨rfl, rfl⟩
  | some k =>
    cases recordLt s.record c.dna.vision with
    | false => exact ⟨rfl, rfl⟩
    | true =>
      cases hg : list[k]? with
      | none => simp [hg]
      | some t => simp [hg]

end Steering
end Sketch

namespace Sketch
section Claims
variable {α : Type} [LinearOrderedField α]

theorem dist_far_of_magSq {sqrt : α → α} (hs : SqrtSpec sqrt) (pos f : Vec α)
    (h : 5 * 5 ≤ Vec.magSq (Vec.sub f pos)) : 5 ≤ Vec.dist sqrt pos f := by
  unfold Vec.dist Vec.mag
  by_contra hlt
  push_neg at hlt
  have := (sqrt_lt_iff hs (Vec.magSq_nonneg (Vec.sub f pos)) (by norm_num : (0 : α) ≤ 5)).mp hlt
  exact absurd h (not_le.mpr this)

/-- Claim C2, as stated, fails: on a 100 by 100 surface `Creature.edges` sends the
x coordinate `100 + 1` to `0`, not to `1`. -/
theorem edges_discards_overshoot :
    (Creature.edges (100 : ℚ) 100
        ⟨⟨100 + 1, 50⟩, ⟨1, 0⟩, ⟨0, 0⟩, ⟨3, 0.2, 100, 0.001⟩, 1⟩).pos.x = 0 ∧
    (Creature.edges (100 : ℚ) 100
        ⟨⟨100 + 1, 50⟩, ⟨1, 0⟩, ⟨0, 0⟩, ⟨3, 0.2, 100, 0.001⟩, 1⟩).pos.x ≠ 1 := by
  constructor <;> norm_num [Creature.edges, edgesPos]

/-- Claim C2 (amended): on a surface with `0 ≤ width`, `0 ≤ height` and for every
`ε > 0`, `Creature.edges` and `Predator.edges` send an x coordinate `width + ε` to
`0`, a y coordinate `height + ε` to `0`, an x coordinate `-ε` to `width` and a y
coordinate `-ε` to `height`: the overshoot is discarded. -/
theorem edges_resets_to_opposite_edge (width height ε : α) (hw : 0 ≤ width)
    (hh : 0 ≤ height) (hε : 0 < ε) (c : Creature α) (p : Predator α) (t : α) :
    (Creature.edges width height { c with pos := ⟨width + ε, t⟩ }).pos.x = 0 ∧
    (Creature.edges width height { c with pos := ⟨t, height + ε⟩ }).pos.y = 0 ∧
    (Creature.edges width height { c with pos := ⟨-ε, t⟩ }).pos.x = width ∧
    (Creature.edges width height { c with pos := ⟨t, -ε⟩ }).pos.y = height ∧
    (Predator.edges width height { p with pos := ⟨width + ε, t⟩ }).pos.x = 0 ∧
    (Predator.edges width height { p with pos := ⟨t, height + ε⟩ }).pos.y = 0 ∧
    (Predator.edges width height { p with pos := ⟨-ε, t⟩ }).pos.x = width ∧
    (Predator.edges width height { p with pos := ⟨t, -ε⟩ }).pos.y = height := by
  have h1 : width + ε > width := by linarith
  have h2 : height + ε > height := by linarith
  have h3 : ¬ (-ε > width) := by intro h; linarith
  have h4 : ¬ (-ε > height) := by intro h; linarith
  have h5 : -ε < 0 := by linarith
  simp [Creature.edges, Predator.edges, edgesPos, h1, h2, h3, h4, h5]

/-- Instance of `edges_resets_to_opposite_edge` on a 100 by 50 surface with
`ε = 1`. -/
theorem edges_resets_to_opposite_edge_witness :
    (0 : ℚ) ≤ 100 ∧ (0 : ℚ) ≤ 50 ∧ (0 : ℚ) < 1 ∧
    (Creature.edges (100 : ℚ) 50
      { (⟨⟨0, 0⟩, ⟨1, 0⟩, ⟨0, 0⟩, ⟨3, 0.2, 100, 0.001⟩, 1⟩ : Creature ℚ) with
        pos := ⟨100 + 1, 7⟩ }).pos.x = 0 :=
  ⟨by norm_num, by norm_num, by norm_num,
    (edges_resets_to_opposite_edge (100 : ℚ) 50 1 (by norm_num) (by norm_num) (by norm_num)
      ⟨⟨0, 0⟩, ⟨1, 0⟩, ⟨0, 0⟩, ⟨3, 0.2, 100, 0.001⟩, 1⟩
      ⟨⟨0, 0⟩, ⟨1, 0⟩, ⟨0, 0⟩, 3, 0.2, 10, 1⟩ 7).1⟩

/-- Claim C5: a creature all of whose food points are at distance at least 5 (the
empty list included) ends one frame of `behaviors` then `update` with its health
lowered by exactly 0.005; a predator all of whose creatures are at distance at
least 5 ends `hunt` then `update` with its health lowered by exactly 0.01. -/
theorem health_decay_without_eating (sqrt : α → α) (width height : α) (c : Creature α)
    (predators : List (Predator α)) (food : List (Vec α)) (p : Predator α)
    (creatures : List (Creature α))
    (hfood : ∀ f ∈ food, 5 ≤ Vec.dist sqrt c.pos f)
    (hprey : ∀ k ∈ creatures, 5 ≤ Vec.dist sqrt p.pos k.pos) :
    (Creature.update sqrt width height (c.behaviors sqrt predators food).1).health
      = c.health - 0.005 ∧
    (Predator.update sqrt width height (p.hunt sqrt creatures).1).health
      = p.health - 0.01 := by
  constructor
  · have h := scan_record_far sqrt c.pos food hfood
    have he := (Creature.eat_of_far sqrt c food 0.3 h).1
    simp only [Creature.update, Creature.edges, Creature.behaviors, Creature.applyForce, he]
  · have hfar : ∀ f ∈ creatures.map Creature.pos, 5 ≤ Vec.dist sqrt p.pos f := by
      intro f hf
      obtain ⟨k, hk, rfl⟩ := List.mem_map.mp hf
      exact hprey k hk
    have h := scan_record_far sqrt p.pos (creatures.map Creature.pos) hfar
    rw [List.length_map] at h
    simp only [Predator.update, Predator.edges, Predator.hunt, h, Bool.false_eq_true, if_false]
    generalize scanDown sqrt p.pos (creatures.map Creature.pos) creatures.length
      ⟨none, none⟩ = s
    cases s.closest with
    | none => rfl
    | some k =>
      cases hg : creatures[k]? with
      | none => simp [hg]
      | some t => simp [hg, Predator.applyForce]

/-- Instance of `health_decay_without_eating` over the real numbers: food at
`(20, 0)` for a creature at the origin, and that creature as the only prey of a
predator at `(50, 0)`. -/
theorem health_decay_without_eating_witness :
    (∀ f ∈ [(⟨20, 0⟩ : Vec ℝ)], 5 ≤ Vec.dist Real.sqrt (⟨0, 0⟩ : Vec ℝ) f) ∧
    (Creature.update Real.sqrt 100 100
      ((⟨⟨0, 0⟩, ⟨1, 0⟩, ⟨0, 0⟩, ⟨3, 1 / 5, 100, 1 / 1000⟩, 1⟩ : Creature ℝ).behaviors
        Real.sqrt [] [⟨20, 0⟩]).1).health = 1 - 0.005 := by
  have hf : ∀ f ∈ [(⟨20, 0⟩ : Vec ℝ)], 5 ≤ Vec.dist Real.sqrt (⟨0, 0⟩ : Vec ℝ) f := by
    intro f hf
    rw [List.mem_singleton] at hf
    subst hf
    exact dist_far_of_magSq realSqrtSpec _ _ (by norm_num [Vec.magSq, Vec.sub])
  have hp : ∀ k ∈ [(⟨⟨0, 0⟩, ⟨1, 0⟩, ⟨0, 0⟩, ⟨3, 1 / 5, 100, 1 / 1000⟩, 1⟩ : Creature ℝ)],
      5 ≤ Vec.dist Real.sqrt (⟨50, 0⟩ : Vec ℝ) k.pos := by
    intro k hk
    rw [List.mem_singleton] at hk
    subst hk
    exact dist_far_of_magSq realSqrtSpec _ _ (by norm_num [Vec.magSq, Vec.sub])
  exact ⟨hf, (health_decay_without_eating Real.sqrt 100 100
    ⟨⟨0, 0⟩, ⟨1, 0⟩, ⟨0, 0⟩, ⟨3, 1 / 5, 100, 1 / 1000⟩, 1⟩ [] [⟨20, 0⟩]
    ⟨⟨50, 0⟩, ⟨1, 0⟩, ⟨0, 0⟩, 3, 1 / 5, 10, 1⟩
    [⟨⟨0, 0⟩, ⟨1, 0⟩, ⟨0, 0⟩, ⟨3, 1 / 5, 100, 1 / 1000⟩, 1⟩] hf hp).1⟩

end Claims
end Sketch

namespace Sketch
section FirstFrame
variable {α : Type} [LinearOrderedField α]

theorem dist_near_of_magSq {sqrt : α → α} (hs : SqrtSpec sqrt) (pos f : Vec α)
    (h : Vec.magSq (Vec.sub f pos) < 5 * 5) : Vec.dist sqrt pos f < 5 :=
  (sqrt_lt_iff hs (Vec.magSq_nonneg (Vec.sub f pos)) (by norm_num : (0 : α) ≤ 5)).mpr h

theorem Creature.behaviors_single_near (sqrt : α → α) (c : Creature α) (f : Vec α)
    (h : Vec.dist sqrt c.pos f < 5) :
    c.behaviors sqrt [] [f] = ({ c with health := c.health + 0.3 }, []) := by
  have hscan : scanDown sqrt c.pos [f] [f].length ⟨none, none⟩
      = ⟨some (Vec.dist sqrt c.pos f), some 0⟩ := by
    simp [scanDown, ltRecord]
  have hrec : recordLt (scanDown sqrt c.pos [f] [f].length ⟨none, none⟩).record 5 = true := by
    rw [hscan]
    simp [recordLt, h]
  have he := Creature.eat_of_near sqrt c [f] 0.3 hrec
  rw [hscan] at he
  simp only [Creature.behaviors, he, Creature.flee, fleeScan, Creature.applyForce]
  simp [Vec.add, Vec.mult, Vec.zero]

/-- Claim C1, as stated, fails: over the real numbers, a creature at `(0, 0)` with
`maxSpeed = 3` and vision 100, no predators and food at `(2, 0)` ends the first
frame with health `1.295` and an empty food list: the food, at distance 2, is
inside the eat radius 5 and is eaten at once. -/
theorem first_frame_eats_food_at_two :
    (Creature.update Real.sqrt 100 100
      ((⟨⟨0, 0⟩, ⟨1, 0⟩, ⟨0, 0⟩, ⟨3, 1 / 5, 100, 1 / 1000⟩, 1⟩ : Creature ℝ).behaviors
        Real.sqrt [] [⟨2, 0⟩]).1).health = 1.295 ∧
    ((⟨⟨0, 0⟩, ⟨1, 0⟩, ⟨0, 0⟩, ⟨3, 1 / 5, 100, 1 / 1000⟩, 1⟩ : Creature ℝ).behaviors
        Real.sqrt [] [⟨2, 0⟩]).2 = [] ∧
    (Creature.update Real.sqrt 100 100
      ((⟨⟨0, 0⟩, ⟨1, 0⟩, ⟨0, 0⟩, ⟨3, 1 / 5, 100, 1 / 1000⟩, 1⟩ : Creature ℝ).behaviors
        Real.sqrt [] [⟨2, 0⟩]).1).health ≠ 0.995 := by
  have h : Vec.dist Real.sqrt
      (⟨⟨0, 0⟩, ⟨1, 0⟩, ⟨0, 0⟩, ⟨3, 1 / 5, 100, 1 / 1000⟩, 1⟩ : Creature ℝ).pos ⟨2, 0⟩ < 5 :=
    dist_near_of_magSq realSqrtSpec _ _ (by norm_num [Vec.magSq, Vec.sub])
  rw [Creature.behaviors_single_near Real.sqrt _ _ h]
  refine ⟨?_, rfl, ?_⟩ <;> norm_num [Creature.update, Creature.edges]

/-- Claim C1 (amended): a creature at `(0, 0)` with `maxSpeed = 3`, health 1 and no
accumulated acceleration, no predators and one food point at `(2, 0)`: the food
is inside the eat radius, so after one frame (`behaviors` then `update`) the food
list is empty, health is `1 + 0.3 - 0.005`, no steering force was applied, and
the position is the old one displaced by the prior velocity limited to
`maxSpeed`, then wrapped by `edges`. -/
theorem first_frame_food_in_eat_radius (sqrt : α → α) (hs : SqrtSpec sqrt) (width height : α)
    (vel : Vec α) (maxForce vision rate : α) :
    (Creature.update sqrt width height
      ((⟨⟨0, 0⟩, vel, Vec.zero, ⟨3, maxForce, vision, rate⟩, 1⟩ : Creature α).behaviors
        sqrt [] [⟨2, 0⟩]).1).health = 1 + 0.3 - 0.005 ∧
    ((⟨⟨0, 0⟩, vel, Vec.zero, ⟨3, maxForce, vision, rate⟩, 1⟩ : Creature α).behaviors
        sqrt [] [⟨2, 0⟩]).2 = [] ∧
    ((⟨⟨0, 0⟩, vel, Vec.zero, ⟨3, maxForce, vision, rate⟩, 1⟩ : Creature α).behaviors
        sqrt [] [⟨2, 0⟩]).1.acc = Vec.zero ∧
    (Creature.update sqrt width height
      ((⟨⟨0, 0⟩, vel, Vec.zero, ⟨3, maxForce, vision, rate⟩, 1⟩ : Creature α).behaviors
        sqrt [] [⟨2, 0⟩]).1).pos = edgesPos width height (Vec.limit sqrt vel 3) := by
  have h : Vec.dist sqrt
      (⟨⟨0, 0⟩, vel, Vec.zero, ⟨3, maxForce, vision, rate⟩, 1⟩ : Creature α).pos ⟨2, 0⟩ < 5 :=
    dist_near_of_magSq hs _ _ (by norm_num [Vec.magSq, Vec.sub])
  rw [Creature.behaviors_single_near sqrt _ _ h]
  refine ⟨rfl, rfl, rfl, ?_⟩
  have hv : Vec.add vel (Vec.zero : Vec α) = vel := by simp [Vec.add, Vec.zero]
  have hp : ∀ u : Vec α, Vec.add (⟨0, 0⟩ : Vec α) u = u := by intro u; simp [Vec.add]
  simp only [Creature.update, Creature.edges, hv, hp]

/-- Instance of `first_frame_food_in_eat_radius` over the real numbers, on a 100
by 100 surface with prior velocity `(1, 0)`. -/
theorem first_frame_food_in_eat_radius_witness :
    SqrtSpec Real.sqrt ∧
    (Creature.update Real.sqrt 100 100
      ((⟨⟨0, 0⟩, ⟨1, 0⟩, Vec.zero, ⟨3, 1 / 5, 100, 1 / 1000⟩, 1⟩ : Creature ℝ).behaviors
        Real.sqrt [] [⟨2, 0⟩]).1).health = 1 + 0.3 - 0.005 :=
  ⟨realSqrtSpec,
    (first_frame_food_in_eat_radius Real.sqrt realSqrtSpec 100 100 ⟨1, 0⟩ (1 / 5) 100
      (1 / 1000)).1⟩

end FirstFrame
end Sketch

namespace Sketch

section EmptyLists
variable {α : Type} [LinearOrderedField α]

theorem scan_closest_of_record (sqrt : α → α) (pos : Vec α) (list : List (Vec α)) (b : α)
    (h : recordLt (scanDown sqrt pos list list.length ⟨none, none⟩).record b = true) :
    ∃ j, (scanDown sqrt pos list list.length ⟨none, none⟩).closest = some j ∧
      j < list.length := by
  rcases scanDown_spec sqrt pos list with ⟨hr, _, _⟩ | ⟨j, q, _, hj, _, _, hc, _⟩
  · rw [hr] at h
    simp [recordLt] at h
  · exact ⟨j, hc, hj⟩

/-- Claim C10: on an empty predator list `Creature.flee` returns the zero vector;
on an empty food list `Creature.eat` returns the zero vector and leaves the
creature and the list as they were; on an empty creature list `Predator.hunt`
leaves the predator (its acceleration and health) and the list as they were; and
in `eat` and `hunt` the test `record < 5` succeeds only when `closest` is an
index of the list. -/
theorem empty_collection_policy (sqrt : α → α) (c : Creature α) (p : Predator α)
    (nutrition : α) :
    c.flee sqrt [] = Vec.zero ∧
    (c.eat sqrt [] nutrition).force = Vec.zero ∧
    (c.eat sqrt [] nutrition).self = c ∧
    (c.eat sqrt [] nutrition).list = [] ∧
    p.hunt sqrt [] = (p, []) ∧
    (∀ list : List (Vec α),
      recordLt (scanDown sqrt c.pos list list.length ⟨none, none⟩).record 5 = true →
      ∃ j, (scanDown sqrt c.pos list list.length ⟨none, none⟩).closest = some j ∧
        j < list.length) ∧
    (∀ creatures : List (Creature α),
      recordLt (scanDown sqrt p.pos (creatures.map Creature.pos) creatures.length
        ⟨none, none⟩).record 5 = true →
      ∃ j, (scanDown sqrt p.pos (creatures.map Creature.pos) creatures.length
        ⟨none, none⟩).closest = some j ∧ j < creatures.length) := by
  refine ⟨rfl, rfl, rfl, rfl, rfl, ?_, ?_⟩
  · intro list h
    exact scan_closest_of_record sqrt c.pos list 5 h
  · intro creatures h
    have := scan_closest_of_record sqrt p.pos (creatures.map Creature.pos) 5
      (by rw [List.length_map]; exact h)
    rw [List.length_map] at this
    exact this

end EmptyLists
end Sketch

namespace Sketch
section Passes
variable {α : Type} [LinearOrderedField α]

theorem snapshotCreaturePass_snoc (sqrt : α → α) (width height : α) (rnd : FrameDraws α)
    (predators : List (Predator α)) (a : Creature α) :
    ∀ (l : List (Creature α)) (i : Nat) (food : List (Vec α)),
      snapshotCreaturePass sqrt width height rnd predators i (l ++ [a]) food =
        (let r0 := snapshotCreaturePass sqrt width height rnd predators (i + l.length) [a] food
         let r := snapshotCreaturePass sqrt width height rnd predators i l r0.food
         { updated := r.updated ++ r0.updated
           offspring := r0.offspring ++ r.offspring
           food := r.food
           credited := r0.credited + r.credited }) := by
  intro l
  induction l with
  | nil =>
    intro i food
    simp [snapshotCreaturePass]
  | cons x xs ih =>
    intro i food
    have hidx : i + 1 + xs.length = i + (x :: xs).length := by
      simp only [List.length_cons]; omega
    rw [List.cons_append, snapshotCreaturePass, ih (i + 1) food, hidx]
    simp only [snapshotCreaturePass]
    split_ifs <;> simp [Nat.add_assoc, Nat.add_comm, Nat.add_left_comm]

end Passes
end Sketch

namespace Sketch
section Passes
variable {α : Type} [LinearOrderedField α]

theorem getElem?_append_cons_length {β : Type} (l : List β) (a : β) (rest : List β) :
    (l ++ a :: rest)[l.length]? = some a := by
  induction l with
  | nil => simp
  | cons x xs ih => simpa using ih

theorem set_append_cons_length {β : Type} (l : List β) (a c : β) (rest : List β) :
    (l ++ a :: rest).set l.length c = l ++ c :: rest := by
  simp

theorem eraseIdx_append_cons_length {β : Type} (l : List β) (a : β) (rest : List β) :
    (l ++ a :: rest).eraseIdx l.length = l ++ rest := by
  induction l with
  | nil => rfl
  | cons x xs ih => simpa using ih

theorem creatureLoop_eq_snapshot (sqrt : α → α) (width height : α) (rnd : FrameDraws α)
    (predators : List (Predator α)) :
    ∀ (pre rest : List (Creature α)) (food : List (Vec α)),
      creatureLoop sqrt width height rnd pre.length ⟨pre ++ rest, predators, food⟩ =
        ⟨(snapshotCreaturePass sqrt width height rnd predators 0 pre food).updated.filter
            (fun c => !c.isDead) ++ rest ++
          (snapshotCreaturePass sqrt width height rnd predators 0 pre food).offspring,
          predators,
          (snapshotCreaturePass sqrt width height rnd predators 0 pre food).food⟩ := by
  intro pre
  induction pre using List.reverseRecOn with
  | nil =>
    intro rest food
    simp [creatureLoop, snapshotCreaturePass]
  | append_singleton l a ih =>
    intro rest food
    rw [snapshotCreaturePass_snoc]
    simp only [List.length_append, List.length_singleton, List.append_assoc,
      List.singleton_append, creatureLoop, getElem?_append_cons_length,
      set_append_cons_length, eraseIdx_append_cons_length, snapshotCreaturePass, Nat.zero_add]
    by_cases hd : (Creature.update sqrt width height
        (Creature.behaviors sqrt a predators food).1).isDead = true
    · simp only [hd, if_true, ih]
      simp [hd]
    · by_cases hr : (Creature.update sqrt width height
          (Creature.behaviors sqrt a predators food).1).shouldReproduce
            (rnd.creature l.length) = true
      · simp only [hd, hr, if_true, if_false, Creature.reproduce,
          set_append_cons_length, List.append_assoc, List.cons_append, ih]
        simp [hd, hr]
      · simp only [hd, hr, if_false, ih]
        simp [hd, hr]

end Passes
end Sketch

namespace Sketch
section Passes
variable {α : Type} [LinearOrderedField α]

theorem snapshotPredatorPass_snoc (sqrt : α → α) (width height : α) (a : Predator α) :
    ∀ (l : List (Predator α)) (creatures : List (Creature α)),
      snapshotPredatorPass sqrt width height (l ++ [a]) creatures =
        ⟨(snapshotPredatorPass sqrt width height l
            (Predator.hunt sqrt a creatures).2).updated ++
          [Predator.update sqrt width height (Predator.hunt sqrt a creatures).1],
         (snapshotPredatorPass sqrt width height l
            (Predator.hunt sqrt a creatures).2).creatures⟩ := by
  intro l
  induction l with
  | nil =>
    intro creatures
    simp [snapshotPredatorPass]
  | cons x xs ih =>
    intro creatures
    rw [List.cons_append, snapshotPredatorPass, ih creatures]
    simp [snapshotPredatorPass]

theorem predatorLoop_eq_snapshot (sqrt : α → α) (width height : α) (food : List (Vec α)) :
    ∀ (pre rest : List (Predator α)) (creatures : List (Creature α)),
      predatorLoop sqrt width height pre.length ⟨creatures, pre ++ rest, food⟩ =
        ⟨(snapshotPredatorPass sqrt width height pre creatures).creatures,
          (snapshotPredatorPass sqrt width height pre creatures).updated.filter
            (fun p => !p.isDead) ++ rest,
          food⟩ := by
  intro pre
  induction pre using List.reverseRecOn with
  | nil =>
    intro rest creatures
    simp [predatorLoop, snapshotPredatorPass]
  | append_singleton l a ih =>
    intro rest creatures
    rw [snapshotPredatorPass_snoc]
    simp only [List.length_append, List.length_singleton, List.append_assoc,
      List.singleton_append, predatorLoop, getElem?_append_cons_length,
      set_append_cons_length, eraseIdx_append_cons_length]
    by_cases hd : (Predator.update sqrt width height
        (Predator.hunt sqrt a creatures).1).isDead = true
    · simp only [hd, if_true, ih]
      simp [hd]
    · simp only [hd, if_false, ih]
      simp [hd]

theorem creaturePass_eq_snapshot (sqrt : α → α) (width height : α) (rnd : FrameDraws α)
    (w : World α) :
    creaturePass sqrt width height rnd w =
      ⟨(snapshotCreaturePass sqrt width height rnd w.predators 0 w.creatures w.food).updated.filter
          (fun c => !c.isDead) ++
        (snapshotCreaturePass sqrt width height rnd w.predators 0 w.creatures w.food).offspring,
        w.predators,
        (snapshotCreaturePass sqrt width height rnd w.predators 0 w.creatures w.food).food⟩ := by
  have h := creatureLoop_eq_snapshot sqrt width height rnd w.predators w.creatures [] w.food
  simp only [List.append_nil] at h
  exact h

theorem predatorPass_eq_snapshot (sqrt : α → α) (width height : α) (w : World α) :
    predatorPass sqrt width height w =
      ⟨(snapshotPredatorPass sqrt width height w.predators w.creatures).creatures,
        (snapshotPredatorPass sqrt width height w.predators w.creatures).updated.filter
          (fun p => !p.isDead),
        w.food⟩ := by
  have h := predatorLoop_eq_snapshot sqrt width height w.food w.predators [] w.creatures
  simp only [List.append_nil] at h
  exact h

theorem snapshotCreaturePass_length (sqrt : α → α) (width height : α) (rnd : FrameDraws α)
    (predators : List (Predator α)) :
    ∀ (cs : List (Creature α)) (i : Nat) (food : List (Vec α)),
      (snapshotCreaturePass sqrt width height rnd predators i cs food).updated.length
        = cs.length := by
  intro cs
  induction cs with
  | nil => intro i food; rfl
  | cons c cs ih => intro i food; simp [snapshotCreaturePass, ih]

theorem snapshotPredatorPass_length (sqrt : α → α) (width height : α) :
    ∀ (ps : List (Predator α)) (creatures : List (Creature α)),
      (snapshotPredatorPass sqrt width height ps creatures).updated.length = ps.length := by
  intro ps
  induction ps with
  | nil => intro creatures; rfl
  | cons p ps ih => intro creatures; simp [snapshotPredatorPass, ih]

end Passes
end Sketch

namespace Sketch
section Eating
variable {α : Type} [LinearOrderedField α]

theorem scan_record_near (sqrt : α → α) (pos : Vec α) (list : List (Vec α))
    (h : ∃ f ∈ list, Vec.dist sqrt pos f < 5) :
    ∃ (j : Nat) (q : Vec α), j < list.length ∧ list[j]? = some q ∧
      (scanDown sqrt pos list list.length ⟨none, none⟩).record = some (Vec.dist sqrt pos q) ∧
      (scanDown sqrt pos list list.length ⟨none, none⟩).closest = some j ∧
      Vec.dist sqrt pos q < 5 ∧ ∀ p ∈ list, Vec.dist sqrt pos q ≤ Vec.dist sqrt pos p := by
  obtain ⟨f, hf, hlt⟩ := h
  rcases scanDown_spec sqrt pos list with ⟨_, _, hlen⟩ | ⟨j, q, _, hj, hq, hr, hc, hmin⟩
  · have : list = [] := List.length_eq_zero.mp hlen.symm
    rw [this] at hf
    exact absurd hf (List.not_mem_nil f)
  · have hall : ∀ p ∈ list, Vec.dist sqrt pos q ≤ Vec.dist sqrt pos p := by
      intro p hp
      obtain ⟨k, hk⟩ := List.getElem?_of_mem hp
      obtain ⟨hkl, _⟩ := List.getElem?_eq_some.mp hk
      exact (hmin k p (Nat.zero_le k) hkl hk).1
    exact ⟨j, q, hj, hq, hr, hc, lt_of_le_of_lt (hall f hf) hlt, hall⟩

theorem Creature.eat_cases (sqrt : α → α) (c : Creature α) (list : List (Vec α))
    (nutrition : α) :
    ((c.eat sqrt list nutrition).self.health = c.health + nutrition ∧
      (c.eat sqrt list nutrition).list.length + 1 = list.length ∧
      (c.eat sqrt list nutrition).list.Sublist list) ∨
    ((c.eat sqrt list nutrition).self = c ∧ (c.eat sqrt list nutrition).list = list) := by
  cases h : recordLt (scanDown sqrt c.pos list list.length ⟨none, none⟩).record 5 with
  | false => exact Or.inr (Creature.eat_of_far sqrt c list nutrition h)
  | true =>
    left
    obtain ⟨j, hc, hj⟩ := scan_closest_of_record sqrt c.pos list 5 h
    rw [Creature.eat_of_near sqrt c list nutrition h, hc]
    refine ⟨rfl, ?_, List.eraseIdx_sublist _ _⟩
    simp only [Option.getD_some]
    rw [List.length_eraseIdx_of_lt hj]
    omega

theorem snapshotCreaturePass_food (sqrt : α → α) (width height : α) (rnd : FrameDraws α)
    (predators : List (Predator α)) :
    ∀ (cs : List (Creature α)) (i : Nat) (food : List (Vec α)),
      (snapshotCreaturePass sqrt width height rnd predators i cs food).food.Sublist food ∧
      (snapshotCreaturePass sqrt width height rnd predators i cs food).food.length +
        (snapshotCreaturePass sqrt width height rnd predators i cs food).credited
          = food.length := by
  intro cs
  induction cs with
  | nil => intro i food; exact ⟨List.Sublist.refl _, rfl⟩
  | cons c cs ih =>
    intro i food
    obtain ⟨hsub, hlen⟩ := ih (i + 1) food
    simp only [snapshotCreaturePass, Creature.behaviors]
    rcases Creature.eat_cases sqrt c
      (snapshotCreaturePass sqrt width height rnd predators (i + 1) cs food).food 0.3 with
      ⟨hh, hl, hs⟩ | ⟨hself, hlist⟩
    · have hne : ¬ ((Creature.eat sqrt c
          (snapshotCreaturePass sqrt width height rnd predators (i + 1) cs food).food
            0.3).self.health = c.health) := by
        rw [hh]
        intro heq
        have : (0.3 : α) = 0 := by linarith
        norm_num at this
      simp only [hne, if_false]
      exact ⟨hs.trans hsub, by omega⟩
    · simp only [hself, hlist, if_true]
      exact ⟨hsub, hlen⟩

end Eating
end Sketch

namespace Sketch
section Eating
variable {α : Type} [LinearOrderedField α]

/-- Claim C6: when the nearest point of the food list is at distance below 5,
`Creature.eat` removes that one point (the others stay, in order), adds the
nutrition (0.3 from `behaviors`) to health and returns the zero force; over a
creature pass the food left is a sublist of the food at the start, shorter by
exactly the number of creatures whose health `eat` raised. -/
theorem eating_is_exclusive (sqrt : α → α) (width height : α) (rnd : FrameDraws α)
    (c : Creature α) (predators : List (Predator α)) (list : List (Vec α)) (nutrition : α)
    (w : World α) (hnear : ∃ f ∈ list, Vec.dist sqrt c.pos f < 5) :
    (∃ (j : Nat) (q : Vec α), list[j]? = some q ∧ Vec.dist sqrt c.pos q < 5 ∧
      (∀ p ∈ list, Vec.dist sqrt c.pos q ≤ Vec.dist sqrt c.pos p) ∧
      (c.eat sqrt list nutrition).list = list.eraseIdx j ∧
      (c.eat sqrt list nutrition).list.length + 1 = list.length) ∧
    (c.eat sqrt list nutrition).self.health = c.health + nutrition ∧
    (c.eat sqrt list nutrition).force = Vec.zero ∧
    (c.behaviors sqrt predators list).1.health = c.health + 0.3 ∧
    (creaturePass sqrt width height rnd w).food.Sublist w.food ∧
    (creaturePass sqrt width height rnd w).food.length +
      (snapshotCreaturePass sqrt width height rnd w.predators 0 w.creatures w.food).credited
        = w.food.length := by
  obtain ⟨j, q, hj, hq, hr, hc, hlt, hall⟩ := scan_record_near sqrt c.pos list hnear
  have hrec : recordLt (scanDown sqrt c.pos list list.length ⟨none, none⟩).record 5 = true := by
    rw [hr]
    simp [recordLt, hlt]
  have he : ∀ n : α, c.eat sqrt list n
      = ⟨{ c with health := c.health + n }, list.eraseIdx j, Vec.zero⟩ := by
    intro n
    rw [Creature.eat_of_near sqrt c list n hrec, hc]
    rfl
  refine ⟨⟨j, q, hq, hlt, hall, ?_, ?_⟩, ?_, ?_, ?_, ?_⟩
  · rw [he]
  · rw [he]
    simp only
    rw [List.length_eraseIdx_of_lt hj]
    omega
  · rw [he]
  · rw [he]
  · simp only [Creature.behaviors, he, Creature.applyForce]
  · rw [creaturePass_eq_snapshot]
    exact snapshotCreaturePass_food sqrt width height rnd w.predators w.creatures 0 w.food

/-- Instance of `eating_is_exclusive` over the real numbers: a creature at the
origin and the food list `[(2, 0)]`. -/
theorem eating_is_exclusive_witness :
    (∃ f ∈ [(⟨2, 0⟩ : Vec ℝ)], Vec.dist Real.sqrt (⟨0, 0⟩ : Vec ℝ) f < 5) ∧
    ((⟨⟨0, 0⟩, ⟨1, 0⟩, ⟨0, 0⟩, ⟨3, 1 / 5, 100, 1 / 1000⟩, 1⟩ : Creature ℝ).eat Real.sqrt
      [⟨2, 0⟩] (3 / 10)).self.health = 1 + 3 / 10 := by
  have h : ∃ f ∈ [(⟨2, 0⟩ : Vec ℝ)], Vec.dist Real.sqrt (⟨0, 0⟩ : Vec ℝ) f < 5 :=
    ⟨⟨2, 0⟩, List.mem_singleton.mpr rfl,
      dist_near_of_magSq realSqrtSpec _ _ (by norm_num [Vec.magSq, Vec.sub])⟩
  exact ⟨h, (eating_is_exclusive Real.sqrt 100 100
    ⟨1 / 2, 0, 0, fun _ => ⟨1 / 2, 0, 0, 0, 0, ⟨⟨1, 0⟩, 0, 0, 0, 0⟩⟩⟩
    ⟨⟨0, 0⟩, ⟨1, 0⟩, ⟨0, 0⟩, ⟨3, 1 / 5, 100, 1 / 1000⟩, 1⟩ [] [⟨2, 0⟩] (3 / 10)
    ⟨[], [], []⟩ h).2.1⟩

end Eating
end Sketch

namespace Sketch
section Snapshots
variable {α : Type} [LinearOrderedField α]

theorem snapshotCreaturePass_pointwise (sqrt : α → α) (width height : α) (rnd : FrameDraws α)
    (predators : List (Predator α)) :
    ∀ (cs : List (Creature α)) (i : Nat) (food : List (Vec α)),
      List.Forall₂
        (fun c c1 => ∃ food1 : List (Vec α),
          c1 = Creature.update sqrt width height (Creature.behaviors sqrt c predators food1).1)
        cs (snapshotCreaturePass sqrt width height rnd predators i cs food).updated := by
  intro cs
  induction cs with
  | nil => intro i food; exact List.Forall₂.nil
  | cons c cs ih =>
    intro i food
    simp only [snapshotCreaturePass]
    exact List.Forall₂.cons ⟨_, rfl⟩ (ih (i + 1) food)

theorem snapshotCreaturePass_offspring (sqrt : α → α) (width height : α) (rnd : FrameDraws α)
    (predators : List (Predator α)) :
    ∀ (cs : List (Creature α)) (i : Nat) (food : List (Vec α)),
      ∀ k ∈ (snapshotCreaturePass sqrt width height rnd predators i cs food).offspring,
        ∃ c1 ∈ (snapshotCreaturePass sqrt width height rnd predators i cs food).updated,
          ∃ j : Nat, c1.isDead = false ∧ k = (c1.reproduce (rnd.creature j)).2 := by
  intro cs
  induction cs with
  | nil => intro i food k hk; simp [snapshotCreaturePass] at hk
  | cons c cs ih =>
    intro i food k hk
    simp only [snapshotCreaturePass] at hk ⊢
    split_ifs at hk with hcond
    · rcases List.mem_append.mp hk with hk1 | hk1
      · obtain ⟨c1, hc1, j, hj⟩ := ih (i + 1) food k hk1
        exact ⟨c1, List.mem_cons_of_mem _ hc1, j, hj⟩
      · rw [List.mem_singleton] at hk1
        simp only [Bool.and_eq_true, Bool.not_eq_true'] at hcond
        exact ⟨_, List.mem_cons_self _ _, i, hcond.1, hk1⟩
    · obtain ⟨c1, hc1, j, hj⟩ := ih (i + 1) food k hk
      exact ⟨c1, List.mem_cons_of_mem _ hc1, j, hj⟩

theorem snapshotPredatorPass_pointwise (sqrt : α → α) (width height : α) :
    ∀ (ps : List (Predator α)) (creatures : List (Creature α)),
      List.Forall₂
        (fun p p1 => ∃ cs1 : List (Creature α),
          p1 = Predator.update sqrt width height (Predator.hunt sqrt p cs1).1)
        ps (snapshotPredatorPass sqrt width height ps creatures).updated := by
  intro ps
  induction ps with
  | nil => intro creatures; exact List.Forall₂.nil
  | cons p ps ih =>
    intro creatures
    simp only [snapshotPredatorPass]
    exact List.Forall₂.cons ⟨_, rfl⟩ (ih creatures)

theorem Predator.hunt_sublist (sqrt : α → α) (p : Predator α) (creatures : List (Creature α)) :
    (p.hunt sqrt creatures).2.Sublist creatures := by
  simp only [Predator.hunt]
  generalize scanDown sqrt p.pos (creatures.map Creature.pos) creatures.length
    ⟨none, none⟩ = s
  cases recordLt s.record 5 with
  | true => exact List.eraseIdx_sublist _ _
  | false =>
    cases s.closest with
    | none => exact List.Sublist.refl _
    | some k =>
      cases hg : creatures[k]? with
      | none => simp [hg]
      | some t => simp [hg]

theorem snapshotPredatorPass_sublist (sqrt : α → α) (width height : α) :
    ∀ (ps : List (Predator α)) (creatures : List (Creature α)),
      (snapshotPredatorPass sqrt width height ps creatures).creatures.Sublist creatures := by
  intro ps
  induction ps with
  | nil => intro creatures; exact List.Sublist.refl _
  | cons p ps ih =>
    intro creatures
    simp only [snapshotPredatorPass]
    exact (Predator.hunt_sublist sqrt p _).trans (ih creatures)

theorem filter_alive_creatures (l : List (Creature α)) :
    l.filter (fun c => !c.isDead) = l.filter (fun c => decide (0 ≤ c.health)) := by
  apply List.filter_congr
  intro c _
  by_cases h : c.health < 0
  · simp [Creature.isDead, h, not_le.mpr h]
  · simp [Creature.isDead, h, not_lt.mp h]

theorem filter_alive_predators (l : List (Predator α)) :
    l.filter (fun p => !p.isDead) = l.filter (fun p => decide (0 ≤ p.health)) := by
  apply List.filter_congr
  intro p _
  by_cases h : p.health < 0
  · simp [Predator.isDead, h, not_le.mpr h]
  · simp [Predator.isDead, h, not_lt.mp h]

theorem spawnFood_creatures (width height : α) (rnd : FrameDraws α) (w : World α) :
    (spawnFood width height rnd w).creatures = w.creatures ∧
    (spawnFood width height rnd w).predators = w.predators := by
  unfold spawnFood
  split <;> exact ⟨rfl, rfl⟩

theorem draw_eq (sqrt : α → α) (width height : α) (rnd : FrameDraws α) (w : World α) :
    draw sqrt width height rnd w =
      ⟨(snapshotPredatorPass sqrt width height w.predators
          (creaturePass sqrt width height rnd (spawnFood width height rnd w)).creatures).creatures,
        (snapshotPredatorPass sqrt width height w.predators
          (creaturePass sqrt width height rnd
            (spawnFood width height rnd w)).creatures).updated.filter (fun p => !p.isDead),
        (creaturePass sqrt width height rnd (spawnFood width height rnd w)).food⟩ := by
  have hp : (creaturePass sqrt width height rnd (spawnFood width height rnd w)).predators
      = w.predators := by
    rw [creaturePass_eq_snapshot]
    exact (spawnFood_creatures width height rnd w).2
  unfold draw
  rw [predatorPass_eq_snapshot, hp]

end Snapshots
end Sketch

namespace Sketch
section FrameClaims
variable {α : Type} [LinearOrderedField α]

/-- Claim C8: after one call of `draw`, whatever the random draws, every creature
and every predator left has health at least 0; the creature pass keeps exactly
the updated creatures of health at least 0 (one entry each, in order) followed
by the offspring, the predator pass keeps exactly the updated predators of
health at least 0, and what else leaves the creature list is prey taken by
`hunt`. Health is the value after `behaviors`/`hunt` and `update`, so a creature
that ate and decayed is judged on the net value, and health 0 stays. -/
theorem culling_after_draw (sqrt : α → α) (width height : α) (rnd : FrameDraws α)
    (w : World α) :
    (∀ c ∈ (draw sqrt width height rnd w).creatures, 0 ≤ c.health) ∧
    (∀ p ∈ (draw sqrt width height rnd w).predators, 0 ≤ p.health) ∧
    (creaturePass sqrt width height rnd (spawnFood width height rnd w)).creatures =
      (snapshotCreaturePass sqrt width height rnd w.predators 0 w.creatures
          (spawnFood width height rnd w).food).updated.filter
        (fun c => decide (0 ≤ c.health)) ++
      (snapshotCreaturePass sqrt width height rnd w.predators 0 w.creatures
          (spawnFood width height rnd w).food).offspring ∧
    (snapshotCreaturePass sqrt width height rnd w.predators 0 w.creatures
        (spawnFood width height rnd w).food).updated.length = w.creatures.length ∧
    (draw sqrt width height rnd w).predators =
      (snapshotPredatorPass sqrt width height w.predators
          (creaturePass sqrt width height rnd
            (spawnFood width height rnd w)).creatures).updated.filter
        (fun p => decide (0 ≤ p.health)) ∧
    (snapshotPredatorPass sqrt width height w.predators
        (creaturePass sqrt width height rnd
          (spawnFood width height rnd w)).creatures).updated.length = w.predators.length ∧
    (draw sqrt width height rnd w).creatures.Sublist
      (creaturePass sqrt width height rnd (spawnFood width height rnd w)).creatures := by
  have hcp : (creaturePass sqrt width height rnd (spawnFood width height rnd w)).creatures =
      (snapshotCreaturePass sqrt width height rnd w.predators 0 w.creatures
          (spawnFood width height rnd w).food).updated.filter
        (fun c => decide (0 ≤ c.health)) ++
      (snapshotCreaturePass sqrt width height rnd w.predators 0 w.creatures
          (spawnFood width height rnd w).food).offspring := by
    rw [creaturePass_eq_snapshot, (spawnFood_creatures width height rnd w).1,
      (spawnFood_creatures width height rnd w).2, filter_alive_creatures]
  have hsub : (draw sqrt width height rnd w).creatures.Sublist
      (creaturePass sqrt width height rnd (spawnFood width height rnd w)).creatures := by
    rw [draw_eq]
    exact snapshotPredatorPass_sublist sqrt width height w.predators _
  have hpred : (draw sqrt width height rnd w).predators =
      (snapshotPredatorPass sqrt width height w.predators
          (creaturePass sqrt width height rnd
            (spawnFood width height rnd w)).creatures).updated.filter
        (fun p => decide (0 ≤ p.health)) := by
    rw [draw_eq, filter_alive_predators]
  refine ⟨?_, ?_, hcp, snapshotCreaturePass_length sqrt width height rnd w.predators _ _ _,
    hpred, snapshotPredatorPass_length sqrt width height _ _, hsub⟩
  · intro c hc
    have hmem := hsub.subset hc
    rw [hcp] at hmem
    rcases List.mem_append.mp hmem with h | h
    · simpa using (List.mem_filter.mp h).2
    · obtain ⟨c1, _, j, _, hk⟩ :=
        snapshotCreaturePass_offspring sqrt width height rnd w.predators _ _ _ c h
      rw [hk]
      simp [Creature.reproduce, Creature.new]
  · intro p hp
    rw [hpred] at hp
    simpa using (List.mem_filter.mp hp).2

/-- Claim C9: the creature loop of `draw`, with its `splice` at the current index
and its `push` at the end, computes the snapshot traversal: each creature of the
list at the start goes through `behaviors` and `update` once, the list
afterwards is the updated creatures that are not dead, in order, followed by the
offspring, and each offspring is what `reproduce` returned for a surviving
updated creature (it is not updated in the pass). The predator loop likewise
computes the snapshot traversal with `hunt` and `update`. -/
theorem passes_apply_each_once (sqrt : α → α) (width height : α) (rnd : FrameDraws α)
    (w : World α) :
    creaturePass sqrt width height rnd w =
      ⟨(snapshotCreaturePass sqrt width height rnd w.predators 0 w.creatures
            w.food).updated.filter (fun c => !c.isDead) ++
          (snapshotCreaturePass sqrt width height rnd w.predators 0 w.creatures
            w.food).offspring,
        w.predators,
        (snapshotCreaturePass sqrt width height rnd w.predators 0 w.creatures w.food).food⟩ ∧
    List.Forall₂
      (fun c c1 => ∃ food1 : List (Vec α),
        c1 = Creature.update sqrt width height (Creature.behaviors sqrt c w.predators food1).1)
      w.creatures
      (snapshotCreaturePass sqrt width height rnd w.predators 0 w.creatures w.food).updated ∧
    (∀ k ∈ (snapshotCreaturePass sqrt width height rnd w.predators 0 w.creatures
        w.food).offspring,
      ∃ c1 ∈ (snapshotCreaturePass sqrt width height rnd w.predators 0 w.creatures
          w.food).updated,
        ∃ j : Nat, c1.isDead = false ∧ k = (c1.reproduce (rnd.creature j)).2) ∧
    predatorPass sqrt width height w =
      ⟨(snapshotPredatorPass sqrt width height w.predators w.creatures).creatures,
        (snapshotPredatorPass sqrt width height w.predators w.creatures).updated.filter
          (fun p => !p.isDead),
        w.food⟩ ∧
    List.Forall₂
      (fun p p1 => ∃ cs1 : List (Creature α),
        p1 = Predator.update sqrt width height (Predator.hunt sqrt p cs1).1)
      w.predators (snapshotPredatorPass sqrt width height w.predators w.creatures).updated :=
  ⟨creaturePass_eq_snapshot sqrt width height rnd w,
    snapshotCreaturePass_pointwise sqrt width height rnd w.predators w.creatures 0 w.food,
    snapshotCreaturePass_offspring sqrt width height rnd w.predators w.creatures 0 w.food,
    predatorPass_eq_snapshot sqrt width height w,
    snapshotPredatorPass_pointwise sqrt width height w.predators w.creatures⟩

end FrameClaims
end Sketch

namespace Sketch
section Velocity

/-- Claim C3, as stated, fails at the end of a frame: over the real numbers, a
lone creature with `maxSpeed = 1/2` that reproduces leaves an offspring in the
population whose velocity is the constructor's unit vector `(1, 0)`, of magnitude
1, above its own non-negative `maxSpeed` of 1/2. -/
theorem newborn_exceeds_maxSpeed :
    ∃ k ∈ (draw Real.sqrt 100 100
        ⟨1 / 2, 0, 0, fun _ => ⟨0, 1 / 2, 1 / 2, 1 / 2, 1 / 2, ⟨⟨1, 0⟩, 0, 0, 0, 0⟩⟩⟩
        ⟨[(⟨⟨0, 0⟩, ⟨0, 0⟩, ⟨0, 0⟩, ⟨1 / 2, 1 / 5, 100, 1 / 100⟩, 1⟩ : Creature ℝ)], [],
          []⟩).creatures,
      0 ≤ k.dna.maxSpeed ∧ k.dna.maxSpeed = 1 / 2 ∧ Vec.mag Real.sqrt k.vel = 1 ∧
        k.dna.maxSpeed < Vec.mag Real.sqrt k.vel := by
  refine ⟨⟨⟨0, 0⟩, ⟨1, 0⟩, Vec.zero, ⟨1 / 2, 1 / 5, 100, 1 / 100⟩, 1⟩, ?_, ?_⟩
  · norm_num [draw, predatorPass, predatorLoop, creaturePass, creatureLoop, spawnFood,
      random1, random2, Creature.behaviors, Creature.flee, Creature.fleeScan, Creature.eat,
      scanDown, recordLt, Creature.applyForce, Creature.update, Creature.edges, edgesPos,
      Vec.add, Vec.mult, Vec.zero, Vec.limit, Vec.magSq, Creature.isDead,
      Creature.shouldReproduce, Creature.reproduce, Creature.new]
  · norm_num [Vec.mag, Vec.magSq]

end Velocity
end Sketch

namespace Sketch
section FleeScan
variable {α : Type} [LinearOrderedField α]

theorem getElem?_snoc_cases {β : Type} (l : List β) (x : β) (k : Nat) (t : β)
    (h : (l ++ [x])[k]? = some t) : (k < l.length ∧ l[k]? = some t) ∨ (k = l.length ∧ t = x) := by
  by_cases hk : k < l.length
  · left
    rw [List.getElem?_append_left hk] at h
    exact ⟨hk, h⟩
  · right
    have hle : l.length ≤ k := Nat.le_of_not_lt hk
    rw [List.getElem?_append_right hle] at h
    obtain ⟨hlt, hget⟩ := List.getElem?_eq_some.mp h
    simp only [List.length_singleton] at hlt
    have hk0 : k - l.length = 0 := by omega
    have hkl : k = l.length := by omega
    refine ⟨hkl, ?_⟩
    simp [hk0] at hget
    exact hget.symm

theorem fleeScan_good (sqrt : α → α) (c : Creature α) :
    ∀ (rest seen : List (Predator α)) (s : Scan α (Predator α)),
      FleeGood sqrt c seen s → FleeGood sqrt c (seen ++ rest) (c.fleeScan sqrt rest s) := by
  intro rest
  induction rest with
  | nil =>
    intro seen s h
    simpa [Creature.fleeScan] using h
  | cons x xs ih =>
    intro seen s h
    have hstep : FleeGood sqrt c (seen ++ [x])
        (if ltRecord (Vec.dist sqrt c.pos x.pos) s.record
          then ⟨some (Vec.dist sqrt c.pos x.pos), some x⟩ else s) := by
      rcases h with ⟨hr, hc, hnil⟩ | ⟨j, q, hq, hr, hc, hmin⟩
      · right
        subst hnil
        refine ⟨0, x, by simp, by simp [hr, ltRecord], by simp [hr, ltRecord], ?_⟩
        intro k t hk
        rcases getElem?_snoc_cases [] x k t hk with ⟨hlt, _⟩ | ⟨hk0, ht⟩
        · simp at hlt
        · subst ht
          exact ⟨le_rfl, fun hlt => by simp at hk0; omega⟩
      · right
        have hjlt : j < seen.length := (List.getElem?_eq_some.mp hq).1
        by_cases hlt : Vec.dist sqrt c.pos x.pos < Vec.dist sqrt c.pos q.pos
        · refine ⟨seen.length, x, by simp, by simp [hr, ltRecord, hlt],
            by simp [hr, ltRecord, hlt], ?_⟩
          intro k t hk
          rcases getElem?_snoc_cases seen x k t hk with ⟨_, hget⟩ | ⟨hkl, ht⟩
          · have := (hmin k t hget).1
            exact ⟨le_of_lt (lt_of_lt_of_le hlt this), fun _ => lt_of_lt_of_le hlt this⟩
          · subst ht
            exact ⟨le_rfl, fun h => by omega⟩
        · refine ⟨j, q, by rw [List.getElem?_append_left hjlt]; exact hq,
            by simp [hr, ltRecord, hlt], by simp [hr, ltRecord, hlt, hc], ?_⟩
          intro k t hk
          rcases getElem?_snoc_cases seen x k t hk with ⟨_, hget⟩ | ⟨hkl, ht⟩
          · exact hmin k t hget
          · subst ht
            exact ⟨not_lt.mp hlt, fun h => by omega⟩
    have := ih (seen ++ [x]) _ hstep
    rw [List.append_assoc, List.singleton_append] at this
    rw [Creature.fleeScan]
    exact this

theorem fleeScan_spec (sqrt : α → α) (c : Creature α) (predators : List (Predator α)) :
    FleeGood sqrt c predators (c.fleeScan sqrt predators ⟨none, none⟩) := by
  have := fleeScan_good sqrt c predators [] ⟨none, none⟩ (Or.inl ⟨rfl, rfl, rfl⟩)
  simpa using this

end FleeScan
end Sketch

namespace Sketch
section Nearest
variable {α : Type} [LinearOrderedField α]

theorem Creature.flee_nearest (sqrt : α → α) (c : Creature α) (predators : List (Predator α))
    (hne : predators ≠ []) :
    ∃ (j : Nat) (q : Predator α), predators[j]? = some q ∧
      (c.fleeScan sqrt predators ⟨none, none⟩).closest = some q ∧
      (c.fleeScan sqrt predators ⟨none, none⟩).record = some (Vec.dist sqrt c.pos q.pos) ∧
      (∀ (k : Nat) (t : Predator α), predators[k]? = some t →
        Vec.dist sqrt c.pos q.pos ≤ Vec.dist sqrt c.pos t.pos ∧
        (k < j → Vec.dist sqrt c.pos q.pos < Vec.dist sqrt c.pos t.pos)) ∧
      c.flee sqrt predators =
        if Vec.dist sqrt c.pos q.pos < c.dna.vision then
          Vec.limit sqrt
            (Vec.sub (Vec.setMag sqrt (Vec.sub c.pos q.pos) c.dna.maxSpeed) c.vel)
            c.dna.maxForce
        else Vec.zero := by
  rcases fleeScan_spec sqrt c predators with ⟨_, _, hnil⟩ | ⟨j, q, hq, hr, hc, hmin⟩
  · exact absurd hnil hne
  · refine ⟨j, q, hq, hc, hr, hmin, ?_⟩
    simp only [Creature.flee, hc, hr, recordLt, decide_eq_true_eq]

theorem Creature.eat_nearest (sqrt : α → α) (c : Creature α) (list : List (Vec α))
    (nutrition : α) (hne : list ≠ []) :
    ∃ (j : Nat) (q : Vec α), list[j]? = some q ∧
      (scanDown sqrt c.pos list list.length ⟨none, none⟩).closest = some j ∧
      (scanDown sqrt c.pos list list.length ⟨none, none⟩).record
        = some (Vec.dist sqrt c.pos q) ∧
      (∀ (k : Nat) (t : Vec α), list[k]? = some t →
        Vec.dist sqrt c.pos q ≤ Vec.dist sqrt c.pos t ∧
        (j < k → Vec.dist sqrt c.pos q < Vec.dist sqrt c.pos t)) ∧
      c.eat sqrt list nutrition =
        if Vec.dist sqrt c.pos q < 5 then
          ⟨{ c with health := c.health + nutrition }, list.eraseIdx j, Vec.zero⟩
        else if Vec.dist sqrt c.pos q < c.dna.vision then ⟨c, list, c.seek sqrt q⟩
        else ⟨c, list, Vec.zero⟩ := by
  rcases scanDown_spec sqrt c.pos list with ⟨_, _, hlen⟩ | ⟨j, q, _, _, hq, hr, hc, hmin⟩
  · exact absurd (List.length_eq_zero.mp hlen.symm) hne
  · refine ⟨j, q, hq, hc, hr, ?_, ?_⟩
    · intro k t hk
      exact hmin k t (Nat.zero_le k) (List.getElem?_eq_some.mp hk).1 hk
    · simp only [Creature.eat, hc, hr, hq, recordLt, decide_eq_true_eq, Option.getD_some]

theorem Predator.hunt_nearest (sqrt : α → α) (p : Predator α) (creatures : List (Creature α))
    (hne : creatures ≠ []) :
    ∃ (j : Nat) (q : Creature α), creatures[j]? = some q ∧
      (scanDown sqrt p.pos (creatures.map Creature.pos) creatures.length
        ⟨none, none⟩).closest = some j ∧
      (scanDown sqrt p.pos (creatures.map Creature.pos) creatures.length
        ⟨none, none⟩).record = some (Vec.dist sqrt p.pos q.pos) ∧
      (∀ (k : Nat) (t : Creature α), creatures[k]? = some t →
        Vec.dist sqrt p.pos q.pos ≤ Vec.dist sqrt p.pos t.pos ∧
        (j < k → Vec.dist sqrt p.pos q.pos < Vec.dist sqrt p.pos t.pos)) ∧
      p.hunt sqrt creatures =
        if Vec.dist sqrt p.pos q.pos < 5 then
          ({ p with health := p.health + 0.5 }, creatures.eraseIdx j)
        else (p.applyForce (p.seek sqrt q), creatures) := by
  have hspec := scanDown_spec sqrt p.pos (creatures.map Creature.pos)
  rw [List.length_map] at hspec
  rcases hspec with ⟨_, _, hlen⟩ | ⟨j, v, _, _, hv, hr, hc, hmin⟩
  · exact absurd (List.length_eq_zero.mp hlen.symm) hne
  · rw [List.getElem?_map] at hv
    cases hq : creatures[j]? with
    | none => rw [hq] at hv; simp at hv
    | some q =>
      rw [hq] at hv
      simp only [Option.map_some', Option.some.injEq] at hv
      subst hv
      refine ⟨j, q, hq, hc, hr, ?_, ?_⟩
      · intro k t hk
        have hkm : (creatures.map Creature.pos)[k]? = some t.pos := by
          rw [List.getElem?_map, hk]
          rfl
        exact hmin k t.pos (Nat.zero_le k) (List.getElem?_eq_some.mp hk).1 hkm
      · simp only [Predator.hunt, hc, hr, hq, recordLt, decide_eq_true_eq, Option.getD_some]

end Nearest
end Sketch

namespace Sketch
section LaterClaims
variable {α : Type} [LinearOrderedField α]

/-- Claim C12: on a non-empty list the element chosen by `Creature.flee`,
`Creature.eat` and `Predator.hunt` is at minimal distance from the agent; among
the elements at that distance `flee`, which scans forward, holds the one of
lowest index, and `eat` and `hunt`, which scan from the end, hold the one of
highest index. Each function's result is given in terms of the chosen element. -/
theorem nearest_selection_tie_break (sqrt : α → α) (c : Creature α) (p : Predator α)
    (predators : List (Predator α)) (list : List (Vec α)) (nutrition : α)
    (creatures : List (Creature α))
    (hp : predators ≠ []) (hl : list ≠ []) (hc : creatures ≠ []) :
    (∃ (j : Nat) (q : Predator α), predators[j]? = some q ∧
      (c.fleeScan sqrt predators ⟨none, none⟩).closest = some q ∧
      (∀ (k : Nat) (t : Predator α), predators[k]? = some t →
        Vec.dist sqrt c.pos q.pos ≤ Vec.dist sqrt c.pos t.pos ∧
        (k < j → Vec.dist sqrt c.pos q.pos < Vec.dist sqrt c.pos t.pos)) ∧
      c.flee sqrt predators =
        if Vec.dist sqrt c.pos q.pos < c.dna.vision then
          Vec.limit sqrt
            (Vec.sub (Vec.setMag sqrt (Vec.sub c.pos q.pos) c.dna.maxSpeed) c.vel)
            c.dna.maxForce
        else Vec.zero) ∧
    (∃ (j : Nat) (q : Vec α), list[j]? = some q ∧
      (scanDown sqrt c.pos list list.length ⟨none, none⟩).closest = some j ∧
      (∀ (k : Nat) (t : Vec α), list[k]? = some t →
        Vec.dist sqrt c.pos q ≤ Vec.dist sqrt c.pos t ∧
        (j < k → Vec.dist sqrt c.pos q < Vec.dist sqrt c.pos t)) ∧
      c.eat sqrt list nutrition =
        if Vec.dist sqrt c.pos q < 5 then
          ⟨{ c with health := c.health + nutrition }, list.eraseIdx j, Vec.zero⟩
        else if Vec.dist sqrt c.pos q < c.dna.vision then ⟨c, list, c.seek sqrt q⟩
        else ⟨c, list, Vec.zero⟩) ∧
    (∃ (j : Nat) (q : Creature α), creatures[j]? = some q ∧
      (scanDown sqrt p.pos (creatures.map Creature.pos) creatures.length
        ⟨none, none⟩).closest = some j ∧
      (∀ (k : Nat) (t : Creature α), creatures[k]? = some t →
        Vec.dist sqrt p.pos q.pos ≤ Vec.dist sqrt p.pos t.pos ∧
        (j < k → Vec.dist sqrt p.pos q.pos < Vec.dist sqrt p.pos t.pos)) ∧
      p.hunt sqrt creatures =
        if Vec.dist sqrt p.pos q.pos < 5 then
          ({ p with health := p.health + 0.5 }, creatures.eraseIdx j)
        else (p.applyForce (p.seek sqrt q), creatures)) := by
  refine ⟨?_, ?_, ?_⟩
  · obtain ⟨j, q, hq, hcl, _, hmin, hf⟩ := Creature.flee_nearest sqrt c predators hp
    exact ⟨j, q, hq, hcl, hmin, hf⟩
  · obtain ⟨j, q, hq, hcl, _, hmin, he⟩ := Creature.eat_nearest sqrt c list nutrition hl
    exact ⟨j, q, hq, hcl, hmin, he⟩
  · obtain ⟨j, q, hq, hcl, _, hmin, hh⟩ := Predator.hunt_nearest sqrt p creatures hc
    exact ⟨j, q, hq, hcl, hmin, hh⟩

end LaterClaims
end Sketch

namespace Sketch
section LaterClaims
variable {α : Type} [LinearOrderedField α]

/-- Instance of `nearest_selection_tie_break` over the real numbers: for an agent
at the origin and the food points `(3, 4)` and `(5, 0)`, both at distance 5, the
scan of `eat` holds index 1, the one it meets first coming from the end. -/
theorem nearest_selection_tie_break_witness :
    [(⟨3, 4⟩ : Vec ℝ), ⟨5, 0⟩] ≠ [] ∧
    (scanDown Real.sqrt (⟨0, 0⟩ : Vec ℝ) [⟨3, 4⟩, ⟨5, 0⟩] 2 ⟨none, none⟩).closest = some 1 := by
  refine ⟨by simp, ?_⟩
  obtain ⟨j, q, hq, hcl, hmin, _⟩ :=
    (nearest_selection_tie_break Real.sqrt
      (⟨⟨0, 0⟩, ⟨1, 0⟩, ⟨0, 0⟩, ⟨3, 1 / 5, 100, 1 / 1000⟩, 1⟩ : Creature ℝ)
      (⟨⟨50, 0⟩, ⟨1, 0⟩, ⟨0, 0⟩, 3, 1 / 5, 10, 1⟩ : Predator ℝ)
      [⟨⟨50, 0⟩, ⟨1, 0⟩, ⟨0, 0⟩, 3, 1 / 5, 10, 1⟩] [⟨3, 4⟩, ⟨5, 0⟩] (3 / 10)
      [⟨⟨0, 0⟩, ⟨1, 0⟩, ⟨0, 0⟩, ⟨3, 1 / 5, 100, 1 / 1000⟩, 1⟩]
      (by simp) (by simp) (by simp)).2.1
  have hj : j < 2 := (List.getElem?_eq_some.mp hq).1
  have hlen : [(⟨3, 4⟩ : Vec ℝ), ⟨5, 0⟩].length = 2 := rfl
  rw [hlen] at hcl
  rcases Nat.lt_succ_iff_lt_or_eq.mp hj with h0 | h1
  · have hj0 : j = 0 := by omega
    subst hj0
    have hq0 : q = ⟨3, 4⟩ := by simpa using hq.symm
    subst hq0
    have hlt := (hmin 1 ⟨5, 0⟩ rfl).2 (by norm_num)
    have heq : Vec.dist Real.sqrt (⟨0, 0⟩ : Vec ℝ) ⟨3, 4⟩
        = Vec.dist Real.sqrt (⟨0, 0⟩ : Vec ℝ) ⟨5, 0⟩ := by
      simp only [Vec.dist, Vec.mag, Vec.magSq, Vec.sub]
      norm_num
    rw [heq] at hlt
    exact absurd hlt (lt_irrefl _)
  · rw [hcl, h1]

/-- Claim C13: one call of `draw` never lengthens the predator list, and the
predators left are a sublist of the predators of the start, each after one
`hunt` and one `update`: no predator is created. -/
theorem predators_never_reproduce (sqrt : α → α) (width height : α) (rnd : FrameDraws α)
    (w : World α) :
    (draw sqrt width height rnd w).predators.length ≤ w.predators.length ∧
    ∃ updated : List (Predator α),
      List.Forall₂
        (fun p p1 => ∃ cs1 : List (Creature α),
          p1 = Predator.update sqrt width height (Predator.hunt sqrt p cs1).1)
        w.predators updated ∧
      (draw sqrt width height rnd w).predators.Sublist updated := by
  have hsub : (draw sqrt width height rnd w).predators.Sublist
      (snapshotPredatorPass sqrt width height w.predators
        (creaturePass sqrt width height rnd (spawnFood width height rnd w)).creatures).updated := by
    rw [draw_eq]
    exact List.filter_sublist _
  refine ⟨?_, _, snapshotPredatorPass_pointwise sqrt width height w.predators _, hsub⟩
  have := hsub.length_le
  rw [snapshotPredatorPass_length] at this
  exact this

theorem edgesPos_inside (width height : α) (hw : 0 ≤ width) (hh : 0 ≤ height) (pos : Vec α) :
    0 ≤ (edgesPos width height pos).x ∧ (edgesPos width height pos).x ≤ width ∧
    0 ≤ (edgesPos width height pos).y ∧ (edgesPos width height pos).y ≤ height := by
  simp only [edgesPos]
  refine ⟨?_, ?_, ?_, ?_⟩
  · split_ifs <;> first | exact le_rfl | exact hw | linarith
  · split_ifs <;> first | exact le_rfl | exact hw | linarith
  · split_ifs <;> first | exact le_rfl | exact hh | linarith
  · split_ifs <;> first | exact le_rfl | exact hh | linarith

theorem edgesPos_of_inside (width height : α) (pos : Vec α)
    (h : 0 ≤ pos.x ∧ pos.x ≤ width ∧ 0 ≤ pos.y ∧ pos.y ≤ height) :
    edgesPos width height pos = pos := by
  obtain ⟨h1, h2, h3, h4⟩ := h
  simp [edgesPos, not_lt.mpr h1, not_lt.mpr h2, not_lt.mpr h3, not_lt.mpr h4]

/-- Claim C15: on a surface with `0 ≤ width` and `0 ≤ height`, whatever the prior
position, velocity and acceleration, the position after `Creature.update` or
`Predator.update` satisfies `0 ≤ pos.x ≤ width` and `0 ≤ pos.y ≤ height`; and
`edges` leaves a position inside those bounds as it is. -/
theorem position_on_surface_after_update (sqrt : α → α) (width height : α) (c : Creature α)
    (p : Predator α) (hw : 0 ≤ width) (hh : 0 ≤ height) :
    (0 ≤ (Creature.update sqrt width height c).pos.x ∧
      (Creature.update sqrt width height c).pos.x ≤ width ∧
      0 ≤ (Creature.update sqrt width height c).pos.y ∧
      (Creature.update sqrt width height c).pos.y ≤ height) ∧
    (0 ≤ (Predator.update sqrt width height p).pos.x ∧
      (Predator.update sqrt width height p).pos.x ≤ width ∧
      0 ≤ (Predator.update sqrt width height p).pos.y ∧
      (Predator.update sqrt width height p).pos.y ≤ height) ∧
    (0 ≤ c.pos.x ∧ c.pos.x ≤ width ∧ 0 ≤ c.pos.y ∧ c.pos.y ≤ height →
      Creature.edges width height c = c) ∧
    (0 ≤ p.pos.x ∧ p.pos.x ≤ width ∧ 0 ≤ p.pos.y ∧ p.pos.y ≤ height →
      Predator.edges width height p = p) := by
  refine ⟨edgesPos_inside width height hw hh _, edgesPos_inside width height hw hh _, ?_, ?_⟩
  · intro h
    simp only [Creature.edges, edgesPos_of_inside width height c.pos h]
  · intro h
    simp only [Predator.edges, edgesPos_of_inside width height p.pos h]

/-- Instance of `position_on_surface_after_update` on a 100 by 50 surface: a
creature at `(99, 49)` with velocity `(2, 2)` leaves through the corner and is
put back at `(0, 0)`. -/
theorem position_on_surface_after_update_witness :
    (0 : ℝ) ≤ 100 ∧ (0 : ℝ) ≤ 50 ∧
    (0 ≤ (Creature.update Real.sqrt 100 50
        (⟨⟨99, 49⟩, ⟨2, 2⟩, ⟨0, 0⟩, ⟨3, 1 / 5, 100, 1 / 1000⟩, 1⟩ : Creature ℝ)).pos.x ∧
      (Creature.update Real.sqrt 100 50
        (⟨⟨99, 49⟩, ⟨2, 2⟩, ⟨0, 0⟩, ⟨3, 1 / 5, 100, 1 / 1000⟩, 1⟩ : Creature ℝ)).pos.x ≤ 100 ∧
      0 ≤ (Creature.update Real.sqrt 100 50
        (⟨⟨99, 49⟩, ⟨2, 2⟩, ⟨0, 0⟩, ⟨3, 1 / 5, 100, 1 / 1000⟩, 1⟩ : Creature ℝ)).pos.y ∧
      (Creature.update Real.sqrt 100 50
        (⟨⟨99, 49⟩, ⟨2, 2⟩, ⟨0, 0⟩, ⟨3, 1 / 5, 100, 1 / 1000⟩, 1⟩ : Creature ℝ)).pos.y ≤ 50) :=
  ⟨by norm_num, by norm_num,
    (position_on_surface_after_update Real.sqrt 100 50
      ⟨⟨99, 49⟩, ⟨2, 2⟩, ⟨0, 0⟩, ⟨3, 1 / 5, 100, 1 / 1000⟩, 1⟩
      ⟨⟨50, 0⟩, ⟨1, 0⟩, ⟨0, 0⟩, 3, 1 / 5, 10, 1⟩ (by norm_num) (by norm_num)).1⟩

end LaterClaims
end Sketch

namespace Sketch
section Flee
variable {α : Type} [LinearOrderedField α]

theorem Vec.setMag_eq_mult {sqrt : α → α} (hs : SqrtSpec sqrt) (v : Vec α) (n : α)
    (hn : 0 ≤ n) : ∃ t : α, 0 ≤ t ∧ Vec.setMag sqrt v n = Vec.mult v t := by
  by_cases h : Vec.mag sqrt v = 0
  · refine ⟨n, hn, ?_⟩
    simp [Vec.setMag, Vec.normalize, h]
  · refine ⟨1 / Vec.mag sqrt v * n, ?_, ?_⟩
    · exact mul_nonneg (div_nonneg zero_le_one (Vec.mag_nonneg hs v)) hn
    · simp only [Vec.setMag, Vec.normalize, h, ne_eq, not_false_eq_true, if_true, Vec.mult,
        mul_assoc]

/-- Claim C14, as stated, fails: over the real numbers, for a creature at the
origin with velocity `(0, 3)`, `maxSpeed = 4` and `maxForce = 1/5` and a predator
at `(1, 0)`, inside its vision, `flee` returns `(-4/25, -3/25)`, which is no
multiple of the offset `(-1, 0)` from the predator to the creature. -/
theorem flee_force_not_along_offset :
    (⟨⟨0, 0⟩, ⟨0, 3⟩, ⟨0, 0⟩, ⟨4, 1 / 5, 100, 1 / 1000⟩, 1⟩ : Creature ℝ).flee Real.sqrt
        [⟨⟨1, 0⟩, ⟨1, 0⟩, ⟨0, 0⟩, 3, 1 / 5, 10, 1⟩] = ⟨-4 / 25, -3 / 25⟩ ∧
    Vec.sub (⟨0, 0⟩ : Vec ℝ) ⟨1, 0⟩ = ⟨-1, 0⟩ ∧
    ∀ t : ℝ, Vec.mult (⟨-1, 0⟩ : Vec ℝ) t ≠ ⟨-4 / 25, -3 / 25⟩ := by
  have h25 : Real.sqrt 25 = 5 := by
    rw [show (25 : ℝ) = 5 ^ 2 by norm_num]
    exact Real.sqrt_sq (by norm_num)
  refine ⟨?_, ?_, ?_⟩
  · norm_num [Creature.flee, Creature.fleeScan, ltRecord, recordLt, Vec.dist, Vec.mag,
      Vec.magSq, Vec.sub, Vec.setMag, Vec.normalize, Vec.mult, Vec.limit, Vec.div, h25]
  · norm_num [Vec.sub]
  · intro t h
    have := congrArg Vec.y h
    norm_num [Vec.mult] at this

end Flee
end Sketch

namespace Sketch
section Flee
variable {α : Type} [LinearOrderedField α]

/-- Claim C14 (amended): on an empty predator list the flee force is zero; on a
non-empty one, with `q` a predator at minimal distance, the force is zero when
that distance is at least `dna.vision`, and otherwise it is the difference
between the desired velocity and the current velocity, limited to `maxForce`,
where the desired velocity is aimed directly away from `q`: for a non-negative
`maxSpeed` it is a non-negative multiple of (creature position - predator
position). `behaviors` adds 5 times the flee force, then the force of `eat`, to
the acceleration. -/
theorem flee_steers_from_nearest (sqrt : α → α) (hs : SqrtSpec sqrt) (c : Creature α)
    (predators : List (Predator α)) (food : List (Vec α)) (hspeed : 0 ≤ c.dna.maxSpeed) :
    (predators = [] → c.flee sqrt predators = Vec.zero) ∧
    (predators ≠ [] →
      ∃ (j : Nat) (q : Predator α), predators[j]? = some q ∧
        (∀ t ∈ predators, Vec.dist sqrt c.pos q.pos ≤ Vec.dist sqrt c.pos t.pos) ∧
        c.flee sqrt predators =
          (if Vec.dist sqrt c.pos q.pos < c.dna.vision then
            Vec.limit sqrt
              (Vec.sub (Vec.setMag sqrt (Vec.sub c.pos q.pos) c.dna.maxSpeed) c.vel)
              c.dna.maxForce
          else Vec.zero) ∧
        ∃ t : α, 0 ≤ t ∧
          Vec.setMag sqrt (Vec.sub c.pos q.pos) c.dna.maxSpeed
            = Vec.mult (Vec.sub c.pos q.pos) t) ∧
    (c.behaviors sqrt predators food).1.acc =
      Vec.add (Vec.add c.acc (Vec.mult (c.flee sqrt predators) 5))
        (c.eat sqrt food 0.3).force := by
  refine ⟨?_, ?_, ?_⟩
  · intro h
    subst h
    rfl
  · intro hne
    obtain ⟨j, q, hq, _, _, hmin, hf⟩ := Creature.flee_nearest sqrt c predators hne
    refine ⟨j, q, hq, ?_, hf, Vec.setMag_eq_mult hs _ _ hspeed⟩
    intro t ht
    obtain ⟨k, hk⟩ := List.getElem?_of_mem ht
    exact (hmin k t hk).1
  · have hacc : (c.eat sqrt food 0.3).self.acc = c.acc := by
      cases h : recordLt (scanDown sqrt c.pos food food.length ⟨none, none⟩).record 5 with
      | false => rw [(Creature.eat_of_far sqrt c food 0.3 h).1]
      | true => rw [Creature.eat_of_near sqrt c food 0.3 h]
    simp only [Creature.behaviors, Creature.applyForce, hacc]

/-- Instance of `flee_steers_from_nearest` over the real numbers: a creature at
the origin with velocity `(0, 3)` and one predator at `(1, 0)`. -/
theorem flee_steers_from_nearest_witness :
    SqrtSpec Real.sqrt ∧ (0 : ℝ) ≤ 4 ∧
    ((⟨⟨0, 0⟩, ⟨0, 3⟩, ⟨0, 0⟩, ⟨4, 1 / 5, 100, 1 / 1000⟩, 1⟩ : Creature ℝ).behaviors Real.sqrt
        [⟨⟨1, 0⟩, ⟨1, 0⟩, ⟨0, 0⟩, 3, 1 / 5, 10, 1⟩] []).1.acc =
      Vec.add (Vec.add (⟨0, 0⟩ : Vec ℝ)
        (Vec.mult ((⟨⟨0, 0⟩, ⟨0, 3⟩, ⟨0, 0⟩, ⟨4, 1 / 5, 100, 1 / 1000⟩, 1⟩ : Creature ℝ).flee
          Real.sqrt [⟨⟨1, 0⟩, ⟨1, 0⟩, ⟨0, 0⟩, 3, 1 / 5, 10, 1⟩]) 5))
        ((⟨⟨0, 0⟩, ⟨0, 3⟩, ⟨0, 0⟩, ⟨4, 1 / 5, 100, 1 / 1000⟩, 1⟩ : Creature ℝ).eat Real.sqrt
          [] 0.3).force :=
  ⟨realSqrtSpec, by norm_num,
    (flee_steers_from_nearest Real.sqrt realSqrtSpec
      ⟨⟨0, 0⟩, ⟨0, 3⟩, ⟨0, 0⟩, ⟨4, 1 / 5, 100, 1 / 1000⟩, 1⟩
      [⟨⟨1, 0⟩, ⟨1, 0⟩, ⟨0, 0⟩, 3, 1 / 5, 10, 1⟩] [] (by norm_num)).2.2⟩

end Flee
end Sketch

namespace Sketch
section Binary64

theorem int_log_two_eq {x : ℚ} {k : ℤ} (hx : 0 < x) (h1 : (2 : ℚ) ^ k ≤ x)
    (h2 : x < (2 : ℚ) ^ (k + 1)) : Int.log 2 x = k := by
  have hb : 1 < 2 := by norm_num
  have a : k ≤ Int.log 2 x := by
    apply (Int.zpow_le_iff_le_log hb hx).mp
    simpa using h1
  have b : Int.log 2 x < k + 1 := by
    apply (Int.lt_zpow_iff_log_lt hb hx).mp
    simpa using h2
  omega

theorem ulp64_pos (x : ℚ) : 0 < ulp64 x := by
  unfold ulp64
  positivity

theorem ulp64_le {x : ℚ} (hx : x ≠ 0) : ulp64 x * 2 ^ (52 : ℕ) ≤ |x| := by
  have hpos : 0 < |x| := abs_pos.mpr hx
  have h := Int.zpow_log_le_self (b := 2) (by norm_num) hpos
  have e : ulp64 x * 2 ^ (52 : ℕ) = (2 : ℚ) ^ Int.log 2 |x| := by
    unfold ulp64
    rw [← zpow_natCast, ← zpow_add₀ (by norm_num : (2 : ℚ) ≠ 0)]
    congr 1
    simp
  rw [e]
  simpa using h

theorem roundHalfEven_cases (q : ℚ) :
    roundHalfEven q = ⌊q⌋ ∧ q - ⌊q⌋ ≤ 1 / 2 ∨ roundHalfEven q = ⌊q⌋ + 1 ∧ 1 / 2 ≤ q - ⌊q⌋ := by
  unfold roundHalfEven
  by_cases h1 : q - ⌊q⌋ < 1 / 2
  · left
    simp only [h1, if_true]
    exact ⟨trivial, le_of_lt h1⟩
  · by_cases h2 : 1 / 2 < q - ⌊q⌋
    · right
      simp only [h1, h2, if_true, if_false]
      exact ⟨trivial, le_of_lt h2⟩
    · have heq : q - ⌊q⌋ = 1 / 2 := le_antisymm (not_lt.mp h2) (not_lt.mp h1)
      by_cases h3 : ⌊q⌋ % 2 = 0
      · left
        simp only [h1, h2, h3, if_true, if_false]
        exact ⟨trivial, le_of_eq heq⟩
      · right
        simp only [h1, h2, h3, if_false]
        exact ⟨trivial, le_of_eq heq.symm⟩

theorem abs_roundHalfEven_sub (q : ℚ) : |(roundHalfEven q : ℚ) - q| ≤ 1 / 2 := by
  have hf1 : (⌊q⌋ : ℚ) ≤ q := Int.floor_le q
  have hf2 : q < ⌊q⌋ + 1 := Int.lt_floor_add_one q
  rcases roundHalfEven_cases q with ⟨h, hle⟩ | ⟨h, hle⟩
  · rw [h, abs_le]
    constructor <;> linarith
  · rw [h, abs_le]
    push_cast
    constructor <;> linarith

theorem roundHalfEven_eq_of_near (q : ℚ) (m : ℤ) (h : |q - m| < 1 / 2) :
    roundHalfEven q = m := by
  have hf1 : (⌊q⌋ : ℚ) ≤ q := Int.floor_le q
  have hf2 : q < ⌊q⌋ + 1 := Int.lt_floor_add_one q
  obtain ⟨h1, h2⟩ := abs_lt.mp h
  rcases roundHalfEven_cases q with ⟨hr, hle⟩ | ⟨hr, hle⟩
  · rw [hr]
    have a : ((⌊q⌋ : ℤ) : ℚ) < m + 1 := by linarith
    have b : ((m : ℤ) : ℚ) < ⌊q⌋ + 1 := by linarith
    have a' : ⌊q⌋ < m + 1 := by exact_mod_cast a
    have b' : m < ⌊q⌋ + 1 := by exact_mod_cast b
    omega
  · rw [hr]
    have a : ((⌊q⌋ : ℤ) : ℚ) + 1 < m + 1 := by linarith
    have b : ((m : ℤ) : ℚ) < ⌊q⌋ + 1 + 1 := by linarith
    have a' : ⌊q⌋ + 1 < m + 1 := by exact_mod_cast a
    have b' : m < ⌊q⌋ + 1 + 1 := by exact_mod_cast b
    omega

theorem fl64_rel_err (x : ℚ) : |fl64 x - x| ≤ 2 ^ (-53 : ℤ) * |x| := by
  unfold fl64
  by_cases hx : x = 0
  · simp [hx]
  · simp only [hx, if_false]
    have hu := ulp64_pos x
    have hle := ulp64_le hx
    have hr := abs_roundHalfEven_sub (x / ulp64 x)
    have e : (roundHalfEven (x / ulp64 x) : ℚ) * ulp64 x - x
        = ((roundHalfEven (x / ulp64 x) : ℚ) - x / ulp64 x) * ulp64 x := by
      field_simp
    rw [e, abs_mul, abs_of_pos hu]
    have h1 : |(roundHalfEven (x / ulp64 x) : ℚ) - x / ulp64 x| * ulp64 x ≤ 1 / 2 * ulp64 x :=
      mul_le_mul_of_nonneg_right hr (le_of_lt hu)
    have h2 : (2 : ℚ) ^ (-53 : ℤ) * |x| ≥ 2 ^ (-53 : ℤ) * (ulp64 x * 2 ^ (52 : ℕ)) :=
      mul_le_mul_of_nonneg_left hle (by positivity)
    have h3 : (2 : ℚ) ^ (-53 : ℤ) * (ulp64 x * 2 ^ (52 : ℕ)) = 1 / 2 * ulp64 x := by
      norm_num
      ring
    linarith

end Binary64
end Sketch

namespace Sketch
section Binary64

theorem fl64_eq_of_near (x : ℚ) (m k : ℤ) (hlo : (2 : ℚ) ^ (k + 52) ≤ |x|)
    (hhi : |x| < (2 : ℚ) ^ (k + 53)) (hnear : |x / 2 ^ k - m| < 1 / 2) :
    fl64 x = m * 2 ^ k := by
  have hpos : 0 < |x| := lt_of_lt_of_le (by positivity) hlo
  have hx : x ≠ 0 := abs_pos.mp hpos
  have hlog : Int.log 2 |x| = k + 52 :=
    int_log_two_eq hpos hlo (by rw [show k + 52 + 1 = k + 53 by ring]; exact hhi)
  have hu : ulp64 x = 2 ^ k := by
    unfold ulp64
    rw [hlog]
    congr 1
    ring
  unfold fl64
  simp only [hx, if_false, hu]
  rw [roundHalfEven_eq_of_near _ m hnear]

theorem fl64_eq_pos (x : ℚ) (m k : ℤ) (hlo : (2 : ℚ) ^ (k + 52) ≤ x)
    (hhi : x < (2 : ℚ) ^ (k + 53)) (h1 : (2 * (m : ℚ) - 1) * 2 ^ k < 2 * x)
    (h2 : 2 * x < (2 * (m : ℚ) + 1) * 2 ^ k) : fl64 x = m * 2 ^ k := by
  have hpos : 0 < x := lt_of_lt_of_le (by positivity) hlo
  have hk : (0 : ℚ) < 2 ^ k := by positivity
  apply fl64_eq_of_near
  · rwa [abs_of_pos hpos]
  · rwa [abs_of_pos hpos]
  · rw [abs_lt]
    constructor
    · rw [lt_sub_iff_add_lt, lt_div_iff₀ hk]
      linarith
    · rw [sub_lt_iff_lt_add, div_lt_iff₀ hk]
      linarith

theorem fl64_eq_neg (x : ℚ) (m k : ℤ) (hlo : (2 : ℚ) ^ (k + 52) ≤ -x)
    (hhi : -x < (2 : ℚ) ^ (k + 53)) (h1 : (2 * (m : ℚ) - 1) * 2 ^ k < 2 * x)
    (h2 : 2 * x < (2 * (m : ℚ) + 1) * 2 ^ k) : fl64 x = m * 2 ^ k := by
  have hneg : x < 0 := by
    have : (0 : ℚ) < 2 ^ (k + 52) := by positivity
    linarith
  have hk : (0 : ℚ) < 2 ^ k := by positivity
  apply fl64_eq_of_near
  · rwa [abs_of_neg hneg]
  · rwa [abs_of_neg hneg]
  · rw [abs_lt]
    constructor
    · rw [lt_sub_iff_add_lt, lt_div_iff₀ hk]
      linarith
    · rw [sub_lt_iff_lt_add, div_lt_iff₀ hk]
      linarith

end Binary64
end Sketch

namespace Sketch
section Binary64Sqrt

theorem sqrt64_lower (x : ℚ) (hx : 0 ≤ x) :
    x * ((1 - 2 ^ (-53 : ℤ)) * (1 - 2 ^ (-53 : ℤ))) ≤ sqrt64 x * sqrt64 x := by
  unfold sqrt64
  by_cases h0 : x ≤ 0
  · have : x = 0 := le_antisymm h0 hx
    simp [this]
  · simp only [h0, if_false]
    have hpos : 0 < x := lt_of_not_le h0
    set e := Int.log 2 x with he
    set u : ℚ := (2 : ℚ) ^ (e / 2 - 52) with hu
    set N : ℕ := ⌊x / (u * u)⌋₊ with hN
    set M : ℕ := Nat.sqrt N with hM
    have hupos : 0 < u := by rw [hu]; positivity
    have huu : 0 < u * u := mul_pos hupos hupos
    have hlog : (2 : ℚ) ^ e ≤ x := by
      have := Int.zpow_log_le_self (b := 2) (by norm_num) hpos
      simpa using this
    have huu_eq : u * u = (2 : ℚ) ^ (2 * (e / 2) - 104) := by
      rw [hu, ← zpow_add₀ (by norm_num : (2 : ℚ) ≠ 0)]
      congr 1
      ring
    have hbig : (2 : ℚ) ^ (104 : ℕ) ≤ x / (u * u) := by
      rw [le_div_iff₀ huu, huu_eq, ← zpow_natCast, ← zpow_add₀ (by norm_num : (2 : ℚ) ≠ 0)]
      refine le_trans ?_ hlog
      apply zpow_le_zpow_right₀ (by norm_num)
      push_cast
      omega
    have hNbig : 2 ^ 104 ≤ N := by
      apply Nat.le_floor
      exact_mod_cast hbig
    have hMbig : 2 ^ 52 ≤ M := by
      rw [hM, Nat.le_sqrt]
      calc 2 ^ 52 * 2 ^ 52 = 2 ^ 104 := by norm_num
        _ ≤ N := hNbig
    have hMq : (2 : ℚ) ^ (52 : ℕ) ≤ (M : ℚ) := by exact_mod_cast hMbig
    have hlt : x / (u * u) < ((M : ℚ) + 1) * ((M : ℚ) + 1) := by
      have h1 : x / (u * u) < (N : ℚ) + 1 := Nat.lt_floor_add_one _
      have h2 : N < (M + 1) * (M + 1) := Nat.lt_succ_sqrt N
      have h3 : (N : ℚ) + 1 ≤ ((M : ℚ) + 1) * ((M : ℚ) + 1) := by exact_mod_cast h2
      linarith
    have hxlt : x < ((M : ℚ) + 1) * ((M : ℚ) + 1) * (u * u) := (div_lt_iff₀ huu).mp hlt
    have h53 : (0 : ℚ) < 2 ^ (-53 : ℤ) := by positivity
    have h53' : (2 : ℚ) ^ (-53 : ℤ) < 1 := by norm_num
    have hprod : (2 : ℚ) ^ (-53 : ℤ) * 2 ^ (52 : ℕ) = 1 / 2 := by norm_num
    generalize (2 : ℚ) ^ (-53 : ℤ) = ε at h53 h53' hprod ⊢
    generalize (2 : ℚ) ^ (52 : ℕ) = B at hMq hprod
    have hε0 : (0 : ℚ) ≤ 1 - ε := by linarith
    have hε1 : (1 : ℚ) - ε ≤ 1 := by linarith
    have hsq1 : (1 - ε) * (1 - ε) ≤ 1 := by
      calc (1 - ε) * (1 - ε) ≤ 1 * 1 := mul_le_mul hε1 hε1 hε0 (by norm_num)
        _ = 1 := by norm_num
    by_cases hmid : x < ((M : ℚ) + 1 / 2) * ((M : ℚ) + 1 / 2) * (u * u)
    · simp only [hmid, if_true]
      have hM0 : (0 : ℚ) ≤ M := Nat.cast_nonneg M
      have hkey : ((M : ℚ) + 1 / 2) * (1 - ε) ≤ M := by
        have h1 : ε * B ≤ ε * ((M : ℚ) + 1 / 2) :=
          mul_le_mul_of_nonneg_left (by linarith) (le_of_lt h53)
        have h2 : ((M : ℚ) + 1 / 2) * (1 - ε) = (M : ℚ) + 1 / 2 - ε * ((M : ℚ) + 1 / 2) := by
          ring
        linarith
      have hkey0 : 0 ≤ ((M : ℚ) + 1 / 2) * (1 - ε) :=
        mul_nonneg (by linarith) hε0
      have hsq : (((M : ℚ) + 1 / 2) * (1 - ε)) * (((M : ℚ) + 1 / 2) * (1 - ε))
          ≤ (M : ℚ) * M :=
        mul_le_mul hkey hkey hkey0 hM0
      have hstep : x * ((1 - ε) * (1 - ε))
          ≤ ((M : ℚ) + 1 / 2) * ((M : ℚ) + 1 / 2) * (u * u) * ((1 - ε) * (1 - ε)) :=
        mul_le_mul_of_nonneg_right (le_of_lt hmid) (mul_nonneg hε0 hε0)
      calc x * ((1 - ε) * (1 - ε))
          ≤ ((M : ℚ) + 1 / 2) * ((M : ℚ) + 1 / 2) * (u * u) * ((1 - ε) * (1 - ε)) := hstep
        _ = (((M : ℚ) + 1 / 2) * (1 - ε)) * (((M : ℚ) + 1 / 2) * (1 - ε)) * (u * u) := by
            ring
        _ ≤ (M : ℚ) * M * (u * u) := mul_le_mul_of_nonneg_right hsq (le_of_lt huu)
        _ = (M : ℚ) * u * ((M : ℚ) * u) := by ring
    · simp only [hmid, if_false]
      calc x * ((1 - ε) * (1 - ε))
          ≤ x * 1 := mul_le_mul_of_nonneg_left hsq1 hx
        _ = x := mul_one x
        _ ≤ ((M : ℚ) + 1) * ((M : ℚ) + 1) * (u * u) := le_of_lt hxlt
        _ = ((M : ℚ) + 1) * u * (((M : ℚ) + 1) * u) := by ring

theorem roundSpec64 : RoundSpec (2 ^ (-53 : ℤ)) fl64 sqrt64 :=
  ⟨by positivity, by norm_num, fl64_rel_err, sqrt64_lower⟩

theorem sqrt64_eq_down (x : ℚ) (M : ℕ) (k : ℤ) (hlo : (2 : ℚ) ^ (2 * k + 104) ≤ x)
    (hhi : x < (2 : ℚ) ^ (2 * k + 106)) (h1 : (M : ℚ) * M * 2 ^ (2 * k) ≤ x)
    (h2 : x < ((M : ℚ) + 1 / 2) * ((M : ℚ) + 1 / 2) * 2 ^ (2 * k)) :
    sqrt64 x = M * 2 ^ k := by
  have hpos : 0 < x := lt_of_lt_of_le (by positivity) hlo
  have hb : 1 < 2 := by norm_num
  have ha : 2 * k + 104 ≤ Int.log 2 x := by
    apply (Int.zpow_le_iff_le_log hb hpos).mp
    simpa using hlo
  have hc : Int.log 2 x < 2 * k + 106 := by
    apply (Int.lt_zpow_iff_log_lt hb hpos).mp
    simpa using hhi
  have hk : Int.log 2 x / 2 - 52 = k := by omega
  have huu : (2 : ℚ) ^ k * 2 ^ k = 2 ^ (2 * k) := by
    rw [← zpow_add₀ (by norm_num : (2 : ℚ) ≠ 0)]
    congr 1
    ring
  have hkpos : (0 : ℚ) < 2 ^ (2 * k) := by positivity
  have hM : Nat.sqrt ⌊x / 2 ^ (2 * k)⌋₊ = M := by
    symm
    rw [Nat.eq_sqrt]
    constructor
    · apply Nat.le_floor
      push_cast
      rw [le_div_iff₀ hkpos]
      exact h1
    · have hfl : (⌊x / 2 ^ (2 * k)⌋₊ : ℚ) ≤ x / 2 ^ (2 * k) :=
        Nat.floor_le (le_of_lt (div_pos hpos hkpos))
      have hx2 : x / 2 ^ (2 * k) < ((M : ℚ) + 1) * ((M : ℚ) + 1) := by
        rw [div_lt_iff₀ hkpos]
        have hM0 : (0 : ℚ) ≤ M := Nat.cast_nonneg M
        nlinarith
      have : (⌊x / 2 ^ (2 * k)⌋₊ : ℚ) < (((M + 1) * (M + 1) : ℕ) : ℚ) := by
        push_cast
        linarith
      exact_mod_cast this
  unfold sqrt64
  simp only [not_le.mpr hpos, if_false, hk, huu, hM, h2, if_true]

end Binary64Sqrt
end Sketch

namespace Sketch
section RoundedBounds
variable {α : Type} [LinearOrderedField α]

theorem fl_lower {ε : α} {fl sqrt : α → α} (h : RoundSpec ε fl sqrt) {x : α} (hx : 0 ≤ x) :
    x * (1 - ε) ≤ fl x := by
  obtain ⟨_, _, hfl, _⟩ := h
  have := (abs_le.mp (hfl x)).1
  rw [abs_of_nonneg hx] at this
  linarith

theorem fl_upper {ε : α} {fl sqrt : α → α} (h : RoundSpec ε fl sqrt) {x : α} (hx : 0 ≤ x) :
    fl x ≤ x * (1 + ε) := by
  obtain ⟨_, _, hfl, _⟩ := h
  have := (abs_le.mp (hfl x)).2
  rw [abs_of_nonneg hx] at this
  linarith

theorem fl_abs_le {ε : α} {fl sqrt : α → α} (h : RoundSpec ε fl sqrt) (x : α) :
    |fl x| ≤ |x| * (1 + ε) := by
  obtain ⟨_, _, hfl, _⟩ := h
  have h1 : |fl x| ≤ |fl x - x| + |x| := by
    have := abs_add (fl x - x) x
    simpa using this
  have h2 := hfl x
  linarith

theorem fl_sq_le {ε : α} {fl sqrt : α → α} (h : RoundSpec ε fl sqrt) (x : α) :
    fl x * fl x ≤ x * x * ((1 + ε) * (1 + ε)) := by
  have h1 := fl_abs_le h x
  have h2 : |fl x| * |fl x| ≤ (|x| * (1 + ε)) * (|x| * (1 + ε)) :=
    mul_le_mul h1 h1 (abs_nonneg _) (le_trans (abs_nonneg _) h1)
  rw [abs_mul_abs_self] at h2
  calc fl x * fl x ≤ (|x| * (1 + ε)) * (|x| * (1 + ε)) := h2
    _ = |x| * |x| * ((1 + ε) * (1 + ε)) := by ring
    _ = x * x * ((1 + ε) * (1 + ε)) := by rw [abs_mul_abs_self]

theorem magSq_lower {ε : α} {fl sqrt : α → α} (h : RoundSpec ε fl sqrt) (v : Vec α) :
    Vec.magSq v * ((1 - ε) * (1 - ε)) ≤ Rounded.Vec.magSq fl v := by
  have hlo : 0 ≤ 1 - ε := by linarith [h.2.1]
  have hx := fl_lower h (mul_self_nonneg v.x)
  have hy := fl_lower h (mul_self_nonneg v.y)
  have hx0 : 0 ≤ fl (v.x * v.x) := le_trans (mul_nonneg (mul_self_nonneg v.x) hlo) hx
  have hy0 : 0 ≤ fl (v.y * v.y) := le_trans (mul_nonneg (mul_self_nonneg v.y) hlo) hy
  have hs := fl_lower h (add_nonneg hx0 hy0)
  have h1 : (v.x * v.x + v.y * v.y) * (1 - ε) ≤ fl (v.x * v.x) + fl (v.y * v.y) := by
    linarith
  have h2 : (v.x * v.x + v.y * v.y) * (1 - ε) * (1 - ε)
      ≤ (fl (v.x * v.x) + fl (v.y * v.y)) * (1 - ε) :=
    mul_le_mul_of_nonneg_right h1 hlo
  unfold Vec.magSq Rounded.Vec.magSq
  calc (v.x * v.x + v.y * v.y) * ((1 - ε) * (1 - ε))
      = (v.x * v.x + v.y * v.y) * (1 - ε) * (1 - ε) := by ring
    _ ≤ (fl (v.x * v.x) + fl (v.y * v.y)) * (1 - ε) := h2
    _ ≤ fl (fl (v.x * v.x) + fl (v.y * v.y)) := hs

theorem scaled_component_le {ε : α} {fl sqrt : α → α} (h : RoundSpec ε fl sqrt) (a s max : α)
    (hs : s ≠ 0) :
    fl (fl (a / s) * max) * fl (fl (a / s) * max) * (s * s)
      ≤ a * a * (max * max) * ((1 + ε) ^ 4) := by
  have hhi : 0 ≤ (1 + ε) * (1 + ε) := mul_self_nonneg _
  have h1 := fl_sq_le h (fl (a / s) * max)
  have h2 := fl_sq_le h (a / s)
  have hss : 0 < s * s := lt_of_le_of_ne (mul_self_nonneg s) (Ne.symm (mul_self_ne_zero.mpr hs))
  have e : a / s * (a / s) * (s * s) = a * a := by
    field_simp
  calc fl (fl (a / s) * max) * fl (fl (a / s) * max) * (s * s)
      ≤ fl (a / s) * max * (fl (a / s) * max) * ((1 + ε) * (1 + ε)) * (s * s) :=
        mul_le_mul_of_nonneg_right h1 (le_of_lt hss)
    _ = fl (a / s) * fl (a / s) * (max * max * ((1 + ε) * (1 + ε)) * (s * s)) := by ring
    _ ≤ a / s * (a / s) * ((1 + ε) * (1 + ε)) * (max * max * ((1 + ε) * (1 + ε)) * (s * s)) :=
        mul_le_mul_of_nonneg_right h2
          (mul_nonneg (mul_nonneg (mul_self_nonneg max) hhi) (le_of_lt hss))
    _ = a / s * (a / s) * (s * s) * (max * max) * ((1 + ε) ^ 4) := by ring
    _ = a * a * (max * max) * ((1 + ε) ^ 4) := by rw [e]

theorem limit_bound {ε : α} {fl sqrt : α → α} (h : RoundSpec ε fl sqrt) (v : Vec α) (max : α) :
    Vec.magSq (Rounded.Vec.limit fl sqrt v max) * (1 - ε) ^ 4 ≤ max * max * (1 + ε) ^ 4 := by
  have hε0 : 0 ≤ ε := h.1
  have hε1 : ε < 1 := h.2.1
  have hlo : 0 < 1 - ε := by linarith
  have hlo1 : 1 - ε ≤ 1 := by linarith
  have hhi1 : 1 ≤ 1 + ε := by linarith
  have hlo2 : 0 < (1 - ε) * (1 - ε) := mul_pos hlo hlo
  have hlo2le : (1 - ε) * (1 - ε) ≤ 1 := by
    calc (1 - ε) * (1 - ε) ≤ 1 * 1 := mul_le_mul hlo1 hlo1 (le_of_lt hlo) zero_le_one
      _ = 1 := one_mul 1
  have hmm : 0 ≤ max * max := mul_self_nonneg max
  have hA : 0 ≤ Vec.magSq v := Vec.magSq_nonneg v
  have hlow := magSq_lower h v
  have hR0 : 0 ≤ Rounded.Vec.magSq fl v := le_trans (mul_nonneg hA (le_of_lt hlo2)) hlow
  unfold Rounded.Vec.limit
  by_cases hgt : Rounded.Vec.magSq fl v > fl (max * max)
  · simp only [hgt, if_true]
    have hflmm : 0 ≤ fl (max * max) :=
      le_trans (mul_nonneg hmm (le_of_lt hlo)) (fl_lower h hmm)
    have hRpos : 0 < Rounded.Vec.magSq fl v := lt_of_le_of_lt hflmm hgt
    have hS := h.2.2.2 (Rounded.Vec.magSq fl v) hR0
    have hSpos : 0 < sqrt (Rounded.Vec.magSq fl v) * sqrt (Rounded.Vec.magSq fl v) :=
      lt_of_lt_of_le (mul_pos hRpos hlo2) hS
    have hs : sqrt (Rounded.Vec.magSq fl v) ≠ 0 := by
      intro hz
      rw [hz] at hSpos
      simp at hSpos
    have hAS : Vec.magSq v * (1 - ε) ^ 4
        ≤ sqrt (Rounded.Vec.magSq fl v) * sqrt (Rounded.Vec.magSq fl v) := by
      calc Vec.magSq v * (1 - ε) ^ 4
          = Vec.magSq v * ((1 - ε) * (1 - ε)) * ((1 - ε) * (1 - ε)) := by ring
        _ ≤ Rounded.Vec.magSq fl v * ((1 - ε) * (1 - ε)) :=
            mul_le_mul_of_nonneg_right hlow (le_of_lt hlo2)
        _ ≤ _ := hS
    have hx := scaled_component_le h v.x (sqrt (Rounded.Vec.magSq fl v)) max hs
    have hy := scaled_component_le h v.y (sqrt (Rounded.Vec.magSq fl v)) max hs
    simp only [Rounded.Vec.div, hs, if_false, Rounded.Vec.mult, Vec.magSq]
    generalize sqrt (Rounded.Vec.magSq fl v) = s at hS hSpos hs hAS hx hy
    generalize fl (fl (v.x / s) * max) = cx at hx
    generalize fl (fl (v.y / s) * max) = cy at hy
    have hsum : (cx * cx + cy * cy) * (s * s)
        ≤ Vec.magSq v * (max * max * (1 + ε) ^ 4) := by
      unfold Vec.magSq
      calc (cx * cx + cy * cy) * (s * s) = cx * cx * (s * s) + cy * cy * (s * s) := by ring
        _ ≤ v.x * v.x * (max * max) * (1 + ε) ^ 4 + v.y * v.y * (max * max) * (1 + ε) ^ 4 :=
            add_le_add hx hy
        _ = (v.x * v.x + v.y * v.y) * (max * max * (1 + ε) ^ 4) := by ring
    have hK : 0 ≤ max * max * (1 + ε) ^ 4 := mul_nonneg hmm (by positivity)
    have hlo4 : 0 ≤ (1 - ε) ^ 4 := by positivity
    have hfin : (cx * cx + cy * cy) * (1 - ε) ^ 4 * (s * s)
        ≤ max * max * (1 + ε) ^ 4 * (s * s) := by
      calc (cx * cx + cy * cy) * (1 - ε) ^ 4 * (s * s)
          = (cx * cx + cy * cy) * (s * s) * (1 - ε) ^ 4 := by ring
        _ ≤ Vec.magSq v * (max * max * (1 + ε) ^ 4) * (1 - ε) ^ 4 :=
            mul_le_mul_of_nonneg_right hsum hlo4
        _ = Vec.magSq v * (1 - ε) ^ 4 * (max * max * (1 + ε) ^ 4) := by ring
        _ ≤ s * s * (max * max * (1 + ε) ^ 4) := mul_le_mul_of_nonneg_right hAS hK
        _ = max * max * (1 + ε) ^ 4 * (s * s) := by ring
    exact le_of_mul_le_mul_right hfin hSpos
  · simp only [hgt, if_false]
    have hle : Rounded.Vec.magSq fl v ≤ fl (max * max) := not_lt.mp hgt
    have hup := fl_upper h hmm
    have h1 : Vec.magSq v * ((1 - ε) * (1 - ε)) ≤ max * max * (1 + ε) := by linarith
    have hhi3 : 1 ≤ (1 + ε) ^ 3 := one_le_pow₀ hhi1
    have hhi0 : 0 ≤ 1 + ε := by linarith
    calc Vec.magSq v * (1 - ε) ^ 4
        = Vec.magSq v * ((1 - ε) * (1 - ε)) * ((1 - ε) * (1 - ε)) := by ring
      _ ≤ max * max * (1 + ε) * ((1 - ε) * (1 - ε)) :=
          mul_le_mul_of_nonneg_right h1 (le_of_lt hlo2)
      _ ≤ max * max * (1 + ε) * 1 :=
          mul_le_mul_of_nonneg_left hlo2le (mul_nonneg hmm hhi0)
      _ = max * max * (1 + ε) * 1 * 1 := by ring
      _ ≤ max * max * (1 + ε) * 1 * (1 + ε) ^ 3 :=
          mul_le_mul_of_nonneg_left hhi3 (by
            have := mul_nonneg hmm hhi0
            linarith)
      _ = max * max * (1 + ε) ^ 4 := by ring

end RoundedBounds
end Sketch

namespace Sketch
section Binary64Sqrt

theorem sqrt64_eq_up (x : ℚ) (M : ℕ) (k : ℤ) (hlo : (2 : ℚ) ^ (2 * k + 104) ≤ x)
    (hhi : x < (2 : ℚ) ^ (2 * k + 106))
    (h1 : ((M : ℚ) + 1 / 2) * ((M : ℚ) + 1 / 2) * 2 ^ (2 * k) ≤ x)
    (h2 : x < ((M : ℚ) + 1) * ((M : ℚ) + 1) * 2 ^ (2 * k)) :
    sqrt64 x = ((M : ℚ) + 1) * 2 ^ k := by
  have hpos : 0 < x := lt_of_lt_of_le (by positivity) hlo
  have hb : 1 < 2 := by norm_num
  have ha : 2 * k + 104 ≤ Int.log 2 x := by
    apply (Int.zpow_le_iff_le_log hb hpos).mp
    simpa using hlo
  have hc : Int.log 2 x < 2 * k + 106 := by
    apply (Int.lt_zpow_iff_log_lt hb hpos).mp
    simpa using hhi
  have hk : Int.log 2 x / 2 - 52 = k := by omega
  have huu : (2 : ℚ) ^ k * 2 ^ k = 2 ^ (2 * k) := by
    rw [← zpow_add₀ (by norm_num : (2 : ℚ) ≠ 0)]
    congr 1
    ring
  have hkpos : (0 : ℚ) < 2 ^ (2 * k) := by positivity
  have hM0 : (0 : ℚ) ≤ M := Nat.cast_nonneg M
  have hM : Nat.sqrt ⌊x / 2 ^ (2 * k)⌋₊ = M := by
    symm
    rw [Nat.eq_sqrt]
    constructor
    · apply Nat.le_floor
      push_cast
      rw [le_div_iff₀ hkpos]
      have : (M : ℚ) * M * 2 ^ (2 * k)
          ≤ ((M : ℚ) + 1 / 2) * ((M : ℚ) + 1 / 2) * 2 ^ (2 * k) := by
        apply mul_le_mul_of_nonneg_right _ (le_of_lt hkpos)
        nlinarith
      linarith
    · have hfl : (⌊x / 2 ^ (2 * k)⌋₊ : ℚ) ≤ x / 2 ^ (2 * k) :=
        Nat.floor_le (le_of_lt (div_pos hpos hkpos))
      have hx2 : x / 2 ^ (2 * k) < ((M : ℚ) + 1) * ((M : ℚ) + 1) := by
        rw [div_lt_iff₀ hkpos]
        exact h2
      have : (⌊x / 2 ^ (2 * k)⌋₊ : ℚ) < (((M + 1) * (M + 1) : ℕ) : ℚ) := by
        push_cast
        linarith
      exact_mod_cast this
  unfold sqrt64
  simp only [not_le.mpr hpos, if_false, hk, huu, hM, not_lt.mpr h1]

end Binary64Sqrt
end Sketch

namespace Sketch
section RoundedReproduce
variable {α : Type} [LinearOrderedField α]

theorem roundSpec_exact {sqrt : α → α} (hs : SqrtSpec sqrt) : RoundSpec (0 : α) id sqrt := by
  refine ⟨le_rfl, zero_lt_one, ?_, ?_⟩
  · intro x
    simp
  · intro x hx
    rw [(hs x hx).2]
    simp

theorem random2_rounded_bound {ε : α} {fl sqrt : α → α} (h : RoundSpec ε fl sqrt) (b u x : α)
    (hb : 0 ≤ b) (hu0 : 0 ≤ u) (hu1 : u ≤ 1 - ε) :
    |fl (x + Rounded.random2 fl u (-b) b) - x|
      ≤ b * (1 + 2 * ε) * ((1 + ε) * (1 + ε)) + ε * |x| := by
  have hε0 : 0 ≤ ε := h.1
  have hε1 : ε < 1 := h.2.1
  have hlo : 0 ≤ 1 - ε := by linarith
  have hhi : 0 ≤ 1 + ε := by linarith
  have hfl := h.2.2.1
  unfold Rounded.random2
  have h2b : 0 ≤ b - -b := by linarith
  have hw0 : 0 ≤ fl (b - -b) := le_trans (mul_nonneg h2b hlo) (fl_lower h h2b)
  have hw1 : fl (b - -b) ≤ (b - -b) * (1 + ε) := fl_upper h h2b
  have huw : 0 ≤ u * fl (b - -b) := mul_nonneg hu0 hw0
  have ht0 : 0 ≤ fl (u * fl (b - -b)) := le_trans (mul_nonneg huw hlo) (fl_lower h huw)
  have ht1 : fl (u * fl (b - -b)) ≤ fl (b - -b) := by
    have a1 := fl_upper h huw
    have a2 : u * fl (b - -b) ≤ (1 - ε) * fl (b - -b) := mul_le_mul_of_nonneg_right hu1 hw0
    have a3 : (1 - ε) * fl (b - -b) * (1 + ε) ≤ fl (b - -b) := by
      have : (1 - ε) * (1 + ε) ≤ 1 := by nlinarith
      calc (1 - ε) * fl (b - -b) * (1 + ε) = (1 - ε) * (1 + ε) * fl (b - -b) := by ring
        _ ≤ 1 * fl (b - -b) := mul_le_mul_of_nonneg_right this hw0
        _ = fl (b - -b) := one_mul _
    have a4 : u * fl (b - -b) * (1 + ε) ≤ (1 - ε) * fl (b - -b) * (1 + ε) :=
      mul_le_mul_of_nonneg_right a2 hhi
    linarith
  have hy : |fl (u * fl (b - -b)) + -b| ≤ b * (1 + 2 * ε) := by
    rw [abs_le]
    constructor
    · nlinarith
    · have : (b - -b) * (1 + ε) = b + b * (1 + 2 * ε) := by ring
      linarith
  have hδ : |fl (fl (u * fl (b - -b)) + -b)| ≤ b * (1 + 2 * ε) * (1 + ε) :=
    le_trans (fl_abs_le h _) (mul_le_mul_of_nonneg_right hy hhi)
  generalize fl (fl (u * fl (b - -b)) + -b) = δ at hδ
  have hz := hfl (x + δ)
  have hxd : |x + δ| ≤ |x| + |δ| := abs_add x δ
  have h1 : |fl (x + δ) - x| ≤ |fl (x + δ) - (x + δ)| + |δ| := by
    have := abs_add (fl (x + δ) - (x + δ)) δ
    have e : fl (x + δ) - (x + δ) + δ = fl (x + δ) - x := by ring
    rw [e] at this
    exact this
  have h2 : ε * |x + δ| ≤ ε * (|x| + |δ|) := mul_le_mul_of_nonneg_left hxd hε0
  have h3 : (1 + ε) * |δ| ≤ (1 + ε) * (b * (1 + 2 * ε) * (1 + ε)) :=
    mul_le_mul_of_nonneg_left hδ hhi
  have e2 : (1 + ε) * (b * (1 + 2 * ε) * (1 + ε)) = b * (1 + 2 * ε) * ((1 + ε) * (1 + ε)) := by
    ring
  have e3 : ε * (|x| + |δ|) + |δ| = ε * |x| + (1 + ε) * |δ| := by ring
  linarith

end RoundedReproduce
end Sketch

namespace Sketch
section RoundedReproduce
variable {α : Type} [LinearOrderedField α]

/-- Claim C7, as stated, fails in double-precision arithmetic: for a parent with
`maxSpeed = 3` and the draw `0`, `reproduce` gives the child
`maxSpeed = 3 + (0 * 0.2 - 0.1)`, which rounds to the double `2.9`, and the
distance of that double from 3 is `0.10000000000000009`, above `0.1` and above
the double nearest `0.1`. -/
theorem reproduce_exceeds_bound_in_doubles :
    (Rounded.Creature.reproduce fl64
        (⟨⟨7, 9⟩, ⟨1, 0⟩, ⟨0, 0⟩, ⟨3, 1 / 4, 100, 1 / 256⟩, 1 / 4⟩ : Creature ℚ)
        ⟨0, 0, 0, 0, 0, ⟨⟨1, 0⟩, 0, 0, 0, 0⟩⟩).2.dna.maxSpeed
      = 6530219459687219 / 2251799813685248 ∧
    (0.1 : ℚ) < |(6530219459687219 / 2251799813685248 : ℚ) - 3| ∧
    fl64 0.1 < |(6530219459687219 / 2251799813685248 : ℚ) - 3| := by
  have f1 : fl64 (1 / 10 : ℚ) = (3602879701896397 / 36028797018963968 : ℚ) := by
    rw [fl64_eq_pos (1 / 10 : ℚ) 7205759403792794 (-56)
      (by norm_num) (by norm_num) (by norm_num) (by norm_num)]
    norm_num
  have f2 : fl64 (3602879701896397 / 18014398509481984 : ℚ)
      = (3602879701896397 / 18014398509481984 : ℚ) := by
    rw [fl64_eq_pos (3602879701896397 / 18014398509481984 : ℚ) 7205759403792794 (-55)
      (by norm_num) (by norm_num) (by norm_num) (by norm_num)]
    norm_num
  have f3 : fl64 (-(3602879701896397 / 36028797018963968) : ℚ)
      = (-(3602879701896397 / 36028797018963968) : ℚ) := by
    rw [fl64_eq_neg (-(3602879701896397 / 36028797018963968) : ℚ) (-7205759403792794) (-56)
      (by norm_num) (by norm_num) (by norm_num) (by norm_num)]
    norm_num
  have f4 : fl64 (104483511354995507 / 36028797018963968 : ℚ)
      = (6530219459687219 / 2251799813685248 : ℚ) := by
    rw [fl64_eq_pos (104483511354995507 / 36028797018963968 : ℚ) 6530219459687219 (-51)
      (by norm_num) (by norm_num) (by norm_num) (by norm_num)]
    norm_num
  have f0 : fl64 0 = 0 := by simp [fl64]
  refine ⟨?_, ?_, ?_⟩
  · simp only [Rounded.Creature.reproduce, Creature.new, Rounded.random2, Option.getD_some]
    norm_num [f0, f1, f2, f3, f4]
  · norm_num [lt_abs]
  · norm_num [f1, lt_abs]

/-- Claim C7 (amended): for every parent, whatever its health, and every outcome
`u` of the draws with `0 ≤ u ≤ 1 - ε`, the offspring returned by `reproduce` has
health 1 and the parent's position, and each genome value is the parent's value
plus a perturbation, the sum rounded: it differs from the parent's value by at
most `b * (1 + 2ε) * (1 + ε)² + ε * |parent value|`, where `b` is the program's
constant (the rounded `0.1`, `0.05`, `0.0005`, and `10`) and `ε` the relative
rounding error (`2 ^ (-53)` for doubles, `0` in exact arithmetic, where the bound
is `b`); the parent is unchanged. -/
theorem reproduce_fidelity_up_to_rounding (ε : α) (fl sqrt : α → α)
    (h : RoundSpec ε fl sqrt) (c : Creature α) (d : Draws α)
    (hSpeed : 0 ≤ d.mSpeed ∧ d.mSpeed ≤ 1 - ε) (hForce : 0 ≤ d.mForce ∧ d.mForce ≤ 1 - ε)
    (hVision : 0 ≤ d.mVision ∧ d.mVision ≤ 1 - ε) (hRate : 0 ≤ d.mRate ∧ d.mRate ≤ 1 - ε) :
    (Rounded.Creature.reproduce fl c d).2.health = 1 ∧
    (Rounded.Creature.reproduce fl c d).2.pos = c.pos ∧
    |(Rounded.Creature.reproduce fl c d).2.dna.maxSpeed - c.dna.maxSpeed|
      ≤ fl 0.1 * (1 + 2 * ε) * ((1 + ε) * (1 + ε)) + ε * |c.dna.maxSpeed| ∧
    |(Rounded.Creature.reproduce fl c d).2.dna.maxForce - c.dna.maxForce|
      ≤ fl 0.05 * (1 + 2 * ε) * ((1 + ε) * (1 + ε)) + ε * |c.dna.maxForce| ∧
    |(Rounded.Creature.reproduce fl c d).2.dna.vision - c.dna.vision|
      ≤ 10 * (1 + 2 * ε) * ((1 + ε) * (1 + ε)) + ε * |c.dna.vision| ∧
    |(Rounded.Creature.reproduce fl c d).2.dna.reproductionRate - c.dna.reproductionRate|
      ≤ fl 0.0005 * (1 + 2 * ε) * ((1 + ε) * (1 + ε)) + ε * |c.dna.reproductionRate| ∧
    (Rounded.Creature.reproduce fl c d).1 = c := by
  have hlo : 0 ≤ 1 - ε := by linarith [h.2.1]
  have hconst : ∀ x : α, 0 ≤ x → 0 ≤ fl x := fun x hx =>
    le_trans (mul_nonneg hx hlo) (fl_lower h hx)
  refine ⟨rfl, rfl, ?_, ?_, ?_, ?_, rfl⟩
  · exact random2_rounded_bound h (fl 0.1) d.mSpeed c.dna.maxSpeed
      (hconst _ (by norm_num)) hSpeed.1 hSpeed.2
  · exact random2_rounded_bound h (fl 0.05) d.mForce c.dna.maxForce
      (hconst _ (by norm_num)) hForce.1 hForce.2
  · exact random2_rounded_bound h 10 d.mVision c.dna.vision (by norm_num) hVision.1 hVision.2
  · exact random2_rounded_bound h (fl 0.0005) d.mRate c.dna.reproductionRate
      (hconst _ (by norm_num)) hRate.1 hRate.2

/-- Instance of `reproduce_fidelity_up_to_rounding` in double-precision
arithmetic: a parent with `maxSpeed = 3` and every draw `0`. -/
theorem reproduce_fidelity_up_to_rounding_witness :
    RoundSpec (2 ^ (-53 : ℤ)) fl64 sqrt64 ∧
    ((0 : ℚ) ≤ 0 ∧ (0 : ℚ) ≤ 1 - 2 ^ (-53 : ℤ)) ∧
    |(Rounded.Creature.reproduce fl64
        (⟨⟨7, 9⟩, ⟨1, 0⟩, ⟨0, 0⟩, ⟨3, 1 / 4, 100, 1 / 256⟩, 1 / 4⟩ : Creature ℚ)
        ⟨0, 0, 0, 0, 0, ⟨⟨1, 0⟩, 0, 0, 0, 0⟩⟩).2.dna.maxSpeed - 3|
      ≤ fl64 0.1 * (1 + 2 * 2 ^ (-53 : ℤ)) * ((1 + 2 ^ (-53 : ℤ)) * (1 + 2 ^ (-53 : ℤ)))
        + 2 ^ (-53 : ℤ) * |(3 : ℚ)| :=
  ⟨roundSpec64, by norm_num,
    (reproduce_fidelity_up_to_rounding (2 ^ (-53 : ℤ)) fl64 sqrt64 roundSpec64
      (⟨⟨7, 9⟩, ⟨1, 0⟩, ⟨0, 0⟩, ⟨3, 1 / 4, 100, 1 / 256⟩, 1 / 4⟩ : Creature ℚ)
      ⟨0, 0, 0, 0, 0, ⟨⟨1, 0⟩, 0, 0, 0, 0⟩⟩
      (by norm_num) (by norm_num) (by norm_num) (by norm_num)).2.2.1⟩

end RoundedReproduce
end Sketch

namespace Sketch
section RoundedSteering
variable {α : Type} [LinearOrderedField α]

theorem zero_bound {ε : α} {fl sqrt : α → α} (h : RoundSpec ε fl sqrt) (max : α) :
    Vec.magSq (Vec.zero : Vec α) * (1 - ε) ^ 4 ≤ max * max * (1 + ε) ^ 4 := by
  have h1 : Vec.magSq (Vec.zero : Vec α) = 0 := by simp [Vec.magSq, Vec.zero]
  have h2 : 0 ≤ 1 + ε := by linarith [h.1]
  rw [h1, zero_mul]
  exact mul_nonneg (mul_self_nonneg max) (by positivity)

theorem rounded_flee_bound {ε : α} {fl sqrt : α → α} (h : RoundSpec ε fl sqrt)
    (c : Creature α) (predators : List (Predator α)) :
    Vec.magSq (Rounded.Creature.flee fl sqrt c predators) * (1 - ε) ^ 4
      ≤ c.dna.maxForce * c.dna.maxForce * (1 + ε) ^ 4 := by
  simp only [Rounded.Creature.flee]
  generalize Rounded.Creature.fleeScan fl sqrt c predators ⟨none, none⟩ = s
  cases s.closest with
  | none => exact zero_bound h _
  | some k =>
    cases recordLt s.record c.dna.vision with
    | false => exact zero_bound h _
    | true => exact limit_bound h _ _

theorem rounded_eat_bound {ε : α} {fl sqrt : α → α} (h : RoundSpec ε fl sqrt)
    (c : Creature α) (list : List (Vec α)) (nutrition : α) :
    Vec.magSq (Rounded.Creature.eat fl sqrt c list nutrition).force * (1 - ε) ^ 4
      ≤ c.dna.maxForce * c.dna.maxForce * (1 + ε) ^ 4 := by
  simp only [Rounded.Creature.eat]
  generalize Rounded.scanDown fl sqrt c.pos list list.length ⟨none, none⟩ = s
  cases recordLt s.record 5 with
  | true => exact zero_bound h _
  | false =>
    cases s.closest with
    | none => exact zero_bound h _
    | some k =>
      cases recordLt s.record c.dna.vision with
      | false => exact zero_bound h _
      | true =>
        cases hg : list[k]? with
        | none => simpa [hg] using zero_bound h c.dna.maxForce
        | some t =>
          have := limit_bound h
            (Rounded.Vec.sub fl
              (Rounded.Vec.setMag fl sqrt (Rounded.Vec.sub fl t c.pos) c.dna.maxSpeed) c.vel)
            c.dna.maxForce
          simpa [hg, Rounded.Creature.seek] using this

/-- Claim C4 (amended): in arithmetic whose every result is within the relative
error `ε` of the exact one, the vectors returned by `Creature.seek`,
`Creature.flee` (before the multiplication by 5), `Creature.eat` and
`Predator.seek` have squared magnitude at most
`maxForce² * ((1 + ε) / (1 - ε))⁴`, that is magnitude at most
`maxForce * ((1 + ε) / (1 - ε))²` for a non-negative `maxForce`: exactly
`maxForce` in exact arithmetic (`ε = 0`), and `maxForce` up to a few units in
the last place in doubles (`ε = 2 ^ (-53)`). -/
theorem steering_force_bounded_up_to_rounding (ε : α) (fl sqrt : α → α)
    (h : RoundSpec ε fl sqrt) (c : Creature α) (p : Predator α) (target : Vec α)
    (predators : List (Predator α)) (list : List (Vec α)) (nutrition : α)
    (prey : Creature α) :
    Vec.magSq (Rounded.Creature.seek fl sqrt c target) * (1 - ε) ^ 4
      ≤ c.dna.maxForce * c.dna.maxForce * (1 + ε) ^ 4 ∧
    Vec.magSq (Rounded.Creature.flee fl sqrt c predators) * (1 - ε) ^ 4
      ≤ c.dna.maxForce * c.dna.maxForce * (1 + ε) ^ 4 ∧
    Vec.magSq (Rounded.Creature.eat fl sqrt c list nutrition).force * (1 - ε) ^ 4
      ≤ c.dna.maxForce * c.dna.maxForce * (1 + ε) ^ 4 ∧
    Vec.magSq (Rounded.Predator.seek fl sqrt p prey) * (1 - ε) ^ 4
      ≤ p.maxForce * p.maxForce * (1 + ε) ^ 4 :=
  ⟨limit_bound h _ _, rounded_flee_bound h c predators, rounded_eat_bound h c list nutrition,
    limit_bound h _ _⟩

/-- Instance of `steering_force_bounded_up_to_rounding` in double-precision
arithmetic: the seek force of a creature at the origin with velocity
`(0, 1.25)` toward `(-8, 0)`, the input at which the exact bound fails. -/
theorem steering_force_bounded_up_to_rounding_witness :
    RoundSpec (2 ^ (-53 : ℤ)) fl64 sqrt64 ∧
    Vec.magSq (Rounded.Creature.seek fl64 sqrt64
        (⟨⟨0, 0⟩, ⟨0, 5 / 4⟩, ⟨0, 0⟩,
          ⟨3, 5404319552844595 / 18014398509481984, 100, 1 / 256⟩, 1⟩ : Creature ℚ)
        ⟨-8, 0⟩) * (1 - 2 ^ (-53 : ℤ)) ^ 4
      ≤ (5404319552844595 / 18014398509481984 : ℚ) * (5404319552844595 / 18014398509481984)
        * (1 + 2 ^ (-53 : ℤ)) ^ 4 :=
  ⟨roundSpec64,
    (steering_force_bounded_up_to_rounding (2 ^ (-53 : ℤ)) fl64 sqrt64 roundSpec64
      (⟨⟨0, 0⟩, ⟨0, 5 / 4⟩, ⟨0, 0⟩,
        ⟨3, 5404319552844595 / 18014398509481984, 100, 1 / 256⟩, 1⟩ : Creature ℚ)
      ⟨⟨50, 0⟩, ⟨1, 0⟩, ⟨0, 0⟩, 3, 1 / 4, 10, 1⟩ ⟨-8, 0⟩ [] [] (1 / 4)
      ⟨⟨0, 0⟩, ⟨1, 0⟩, ⟨0, 0⟩, ⟨3, 1 / 4, 100, 1 / 256⟩, 1⟩).1⟩

end RoundedSteering
end Sketch

namespace Sketch
section RoundedCounterexamples

/-- Claim C4, as stated, fails in double-precision arithmetic: for a creature at
the origin with velocity `(0, 1.25)`, `maxSpeed = 3` and `maxForce` the double
nearest `0.3`, `seek` toward `(-8, 0)` returns
`(-0.27692307692307694, -0.11538461538461539)`, whose squared magnitude exceeds
`maxForce * maxForce` and whose magnitude as `mag()` computes it is
`0.30000000000000004`, above `maxForce`. -/
theorem seek_exceeds_maxForce_in_doubles :
    Rounded.Creature.seek fl64 sqrt64
        (⟨⟨0, 0⟩, ⟨0, 5 / 4⟩, ⟨0, 0⟩, ⟨3, 5404319552844595 / 18014398509481984, 100, 1 / 256⟩, 1⟩ : Creature ℚ)
        ⟨-8, 0⟩
      = ⟨-(2494301332082121 / 9007199254740992), -(4157168886803535 / 36028797018963968)⟩ ∧
    ((5404319552844595 / 18014398509481984 : ℚ) * (5404319552844595 / 18014398509481984)
      < Vec.magSq (⟨-(2494301332082121 / 9007199254740992), -(4157168886803535 / 36028797018963968)⟩ : Vec ℚ)) ∧
    Rounded.Vec.mag fl64 sqrt64 (⟨-(2494301332082121 / 9007199254740992), -(4157168886803535 / 36028797018963968)⟩ : Vec ℚ)
      = 1351079888211149 / 4503599627370496 ∧
    ((5404319552844595 / 18014398509481984 : ℚ) < 1351079888211149 / 4503599627370496) := by
  have f0 : fl64 (-8 : ℚ) = (-8 : ℚ) := by
    rw [fl64_eq_neg (-8 : ℚ) (-4503599627370496) (-49)
      (by norm_num) (by norm_num) (by norm_num) (by norm_num)]
    norm_num
  have f1 : fl64 0 = 0 := by simp [fl64]
  have f2 : fl64 (64 : ℚ) = (64 : ℚ) := by
    rw [fl64_eq_pos (64 : ℚ) 4503599627370496 (-46)
      (by norm_num) (by norm_num) (by norm_num) (by norm_num)]
    norm_num
  have f3 : sqrt64 (64 : ℚ) = (8 : ℚ) := by
    rw [sqrt64_eq_down (64 : ℚ) 4503599627370496 (-49)
      (by norm_num) (by norm_num) (by norm_num) (by norm_num)]
    norm_num
  have f4 : fl64 (1 / 8 : ℚ) = (1 / 8 : ℚ) := by
    rw [fl64_eq_pos (1 / 8 : ℚ) 4503599627370496 (-55)
      (by norm_num) (by norm_num) (by norm_num) (by norm_num)]
    norm_num
  have f5 : fl64 (-1 : ℚ) = (-1 : ℚ) := by
    rw [fl64_eq_neg (-1 : ℚ) (-4503599627370496) (-52)
      (by norm_num) (by norm_num) (by norm_num) (by norm_num)]
    norm_num
  have f6 : fl64 (-3 : ℚ) = (-3 : ℚ) := by
    rw [fl64_eq_neg (-3 : ℚ) (-6755399441055744) (-51)
      (by norm_num) (by norm_num) (by norm_num) (by norm_num)]
    norm_num
  have f7 : fl64 (-(5 / 4) : ℚ) = (-(5 / 4) : ℚ) := by
    rw [fl64_eq_neg (-(5 / 4) : ℚ) (-5629499534213120) (-52)
      (by norm_num) (by norm_num) (by norm_num) (by norm_num)]
    norm_num
  have f8 : fl64 (9 : ℚ) = (9 : ℚ) := by
    rw [fl64_eq_pos (9 : ℚ) 5066549580791808 (-49)
      (by norm_num) (by norm_num) (by norm_num) (by norm_num)]
    norm_num
  have f9 : fl64 (25 / 16 : ℚ) = (25 / 16 : ℚ) := by
    rw [fl64_eq_pos (25 / 16 : ℚ) 7036874417766400 (-52)
      (by norm_num) (by norm_num) (by norm_num) (by norm_num)]
    norm_num
  have f10 : fl64 (169 / 16 : ℚ) = (169 / 16 : ℚ) := by
    rw [fl64_eq_pos (169 / 16 : ℚ) 5946158883012608 (-49)
      (by norm_num) (by norm_num) (by norm_num) (by norm_num)]
    norm_num
  have f11 : fl64 (29206669829258403248756220714025 / 324518553658426726783156020576256 : ℚ) = (3242591731706757 / 36028797018963968 : ℚ) := by
    rw [fl64_eq_pos (29206669829258403248756220714025 / 324518553658426726783156020576256 : ℚ) 6485183463413514 (-56)
      (by norm_num) (by norm_num) (by norm_num) (by norm_num)]
    norm_num
  have f12 : sqrt64 (169 / 16 : ℚ) = (13 / 4 : ℚ) := by
    rw [sqrt64_eq_down (169 / 16 : ℚ) 7318349394477056 (-51)
      (by norm_num) (by norm_num) (by norm_num) (by norm_num)]
    norm_num
  have f13 : fl64 (-(12 / 13) : ℚ) = (-(4157168886803535 / 4503599627370496) : ℚ) := by
    rw [fl64_eq_neg (-(12 / 13) : ℚ) (-8314337773607070) (-53)
      (by norm_num) (by norm_num) (by norm_num) (by norm_num)]
    norm_num
  have f14 : fl64 (-(5 / 13) : ℚ) = (-(6928614811339225 / 18014398509481984) : ℚ) := by
    rw [fl64_eq_neg (-(5 / 13) : ℚ) (-6928614811339225) (-54)
      (by norm_num) (by norm_num) (by norm_num) (by norm_num)]
    norm_num
  have f15 : fl64 (-(22466669099429543039166151643325 / 81129638414606681695789005144064) : ℚ) = (-(2494301332082121 / 9007199254740992) : ℚ) := by
    rw [fl64_eq_neg (-(22466669099429543039166151643325 / 81129638414606681695789005144064) : ℚ) (-4988602664164242) (-54)
      (by norm_num) (by norm_num) (by norm_num) (by norm_num)]
    norm_num
  have f16 : fl64 (-(37444448499049238398610252738875 / 324518553658426726783156020576256) : ℚ) = (-(4157168886803535 / 36028797018963968) : ℚ) := by
    rw [fl64_eq_neg (-(37444448499049238398610252738875 / 324518553658426726783156020576256) : ℚ) (-8314337773607070) (-56)
      (by norm_num) (by norm_num) (by norm_num) (by norm_num)]
    norm_num
  have f17 : fl64 (6221539135226643263377087858641 / 81129638414606681695789005144064 : ℚ) = (1381459199307021 / 18014398509481984 : ℚ) := by
    rw [fl64_eq_pos (6221539135226643263377087858641 / 81129638414606681695789005144064 : ℚ) 5525836797228084 (-56)
      (by norm_num) (by norm_num) (by norm_num) (by norm_num)]
    norm_num
  have f18 : fl64 (17282053153407342398269688496225 / 1298074214633706907132624082305024 : ℚ) = (3837386664741725 / 288230376151711744 : ℚ) := by
    rw [fl64_eq_pos (17282053153407342398269688496225 / 1298074214633706907132624082305024 : ℚ) 7674773329483450 (-59)
      (by norm_num) (by norm_num) (by norm_num) (by norm_num)]
    norm_num
  have f19 : fl64 (25940733853654061 / 288230376151711744 : ℚ) = (6485183463413515 / 72057594037927936 : ℚ) := by
    rw [fl64_eq_pos (25940733853654061 / 288230376151711744 : ℚ) 6485183463413515 (-56)
      (by norm_num) (by norm_num) (by norm_num) (by norm_num)]
    norm_num
  have f20 : sqrt64 (6485183463413515 / 72057594037927936 : ℚ) = (1351079888211149 / 4503599627370496 : ℚ) := by
    rw [sqrt64_eq_up (6485183463413515 / 72057594037927936 : ℚ) 5404319552844595 (-54)
      (by norm_num) (by norm_num) (by norm_num) (by norm_num)]
    norm_num
  refine ⟨?_, ?_, ?_, ?_⟩
  · simp only [Rounded.Creature.seek, Rounded.Vec.sub, Rounded.Vec.setMag,
      Rounded.Vec.normalize, Rounded.Vec.mag, Rounded.Vec.magSq, Rounded.Vec.mult,
      Rounded.Vec.limit, Rounded.Vec.div]
    norm_num [f0, f1, f2, f3, f4, f5, f6, f7, f8, f9, f10, f11, f12, f13, f14, f15, f16, f17, f18, f19, f20]
  · norm_num [Vec.magSq]
  · simp only [Rounded.Vec.mag, Rounded.Vec.magSq]
    norm_num [f0, f1, f2, f3, f4, f5, f6, f7, f8, f9, f10, f11, f12, f13, f14, f15, f16, f17, f18, f19, f20]
  · norm_num

end RoundedCounterexamples
end Sketch

namespace Sketch
section RoundedVelocity
variable {α : Type} [LinearOrderedField α]

theorem snapshotCreaturePass_mem_updated (sqrt : α → α) (width height : α)
    (rnd : FrameDraws α) (predators : List (Predator α)) :
    ∀ (cs : List (Creature α)) (i : Nat) (food : List (Vec α)),
      ∀ k ∈ (snapshotCreaturePass sqrt width height rnd predators i cs food).updated,
        ∃ c ∈ cs, ∃ food1 : List (Vec α),
          k = Creature.update sqrt width height (Creature.behaviors sqrt c predators food1).1 := by
  intro cs
  induction cs with
  | nil => intro i food k hk; simp [snapshotCreaturePass] at hk
  | cons c cs ih =>
    intro i food k hk
    simp only [snapshotCreaturePass, List.mem_cons] at hk
    rcases hk with hk | hk
    · exact ⟨c, List.mem_cons_self _ _, _, hk⟩
    · obtain ⟨c1, hc1, food1, h1⟩ := ih (i + 1) food k hk
      exact ⟨c1, List.mem_cons_of_mem _ hc1, food1, h1⟩

theorem snapshotPredatorPass_mem_updated (sqrt : α → α) (width height : α) :
    ∀ (ps : List (Predator α)) (creatures : List (Creature α)),
      ∀ q ∈ (snapshotPredatorPass sqrt width height ps creatures).updated,
        ∃ p ∈ ps, ∃ cs1 : List (Creature α),
          q = Predator.update sqrt width height (Predator.hunt sqrt p cs1).1 := by
  intro ps
  induction ps with
  | nil => intro creatures q hq; simp [snapshotPredatorPass] at hq
  | cons p ps ih =>
    intro creatures q hq
    simp only [snapshotPredatorPass, List.mem_cons] at hq
    rcases hq with hq | hq
    · exact ⟨p, List.mem_cons_self _ _, _, hq⟩
    · obtain ⟨p1, hp1, cs1, h1⟩ := ih creatures q hq
      exact ⟨p1, List.mem_cons_of_mem _ hp1, cs1, h1⟩

/-- Claim C3 (amended): in arithmetic whose every result is within the relative
error `ε` of the exact one, after `update` the velocity of a creature or predator
has squared magnitude at most `maxSpeed² * ((1 + ε) / (1 - ε))⁴`, that is
magnitude between 0 and `maxSpeed * ((1 + ε) / (1 - ε))²` for a non-negative
`maxSpeed`: exactly `maxSpeed` in exact arithmetic, `maxSpeed` up to a few units
in the last place in doubles. At the end of a frame every predator left and every
creature left is the result of `update` applied in that frame, to which the bound
applies, except the offspring born in the frame, which carry the velocity their
constructor drew and health 1. -/
theorem velocity_bounded_up_to_rounding (ε : α) (fl sqrt : α → α) (h : RoundSpec ε fl sqrt)
    (exactSqrt : α → α) (width height : α) (c : Creature α) (p : Predator α)
    (rnd : FrameDraws α) (w : World α) :
    (Vec.magSq (Rounded.Creature.update fl sqrt width height c).vel * (1 - ε) ^ 4
        ≤ c.dna.maxSpeed * c.dna.maxSpeed * (1 + ε) ^ 4 ∧
      0 ≤ Vec.magSq (Rounded.Creature.update fl sqrt width height c).vel ∧
      (Rounded.Creature.update fl sqrt width height c).dna = c.dna) ∧
    (Vec.magSq (Rounded.Predator.update fl sqrt width height p).vel * (1 - ε) ^ 4
        ≤ p.maxSpeed * p.maxSpeed * (1 + ε) ^ 4 ∧
      0 ≤ Vec.magSq (Rounded.Predator.update fl sqrt width height p).vel ∧
      (Rounded.Predator.update fl sqrt width height p).maxSpeed = p.maxSpeed) ∧
    (∀ k ∈ (draw exactSqrt width height rnd w).creatures,
      (∃ c0 ∈ w.creatures, ∃ food1 : List (Vec α),
        k = Creature.update exactSqrt width height
          (Creature.behaviors exactSqrt c0 w.predators food1).1) ∨
      (∃ j : Nat, k.vel = (rnd.creature j).ctor.vel ∧ k.health = 1 ∧
        k ∈ (snapshotCreaturePass exactSqrt width height rnd w.predators 0 w.creatures
          (spawnFood width height rnd w).food).offspring)) ∧
    (∀ q ∈ (draw exactSqrt width height rnd w).predators,
      ∃ p0 ∈ w.predators, ∃ cs1 : List (Creature α),
        q = Predator.update exactSqrt width height (Predator.hunt exactSqrt p0 cs1).1) := by
  refine ⟨⟨limit_bound h _ _, Vec.magSq_nonneg _, rfl⟩,
    ⟨limit_bound h _ _, Vec.magSq_nonneg _, rfl⟩, ?_, ?_⟩
  · intro k hk
    have hsub : (draw exactSqrt width height rnd w).creatures.Sublist
        (creaturePass exactSqrt width height rnd (spawnFood width height rnd w)).creatures := by
      rw [draw_eq]
      exact snapshotPredatorPass_sublist exactSqrt width height w.predators _
    have hmem := hsub.subset hk
    rw [creaturePass_eq_snapshot, (spawnFood_creatures width height rnd w).1,
      (spawnFood_creatures width height rnd w).2] at hmem
    rcases List.mem_append.mp hmem with hm | hm
    · exact Or.inl (snapshotCreaturePass_mem_updated exactSqrt width height rnd w.predators
        w.creatures 0 _ k (List.mem_filter.mp hm).1)
    · obtain ⟨c1, _, j, _, hkj⟩ := snapshotCreaturePass_offspring exactSqrt width height rnd
        w.predators w.creatures 0 _ k hm
      refine Or.inr ⟨j, ?_, ?_, hm⟩
      · rw [hkj]; rfl
      · rw [hkj]; rfl
  · intro q hq
    rw [draw_eq] at hq
    exact snapshotPredatorPass_mem_updated exactSqrt width height w.predators _ q
      (List.mem_filter.mp hq).1

/-- Instance of `velocity_bounded_up_to_rounding` in double-precision arithmetic:
a creature with velocity `(1.5, 2)`, acceleration `(1.5, 2)` and
`maxSpeed = 3.5`, the input at which the exact bound fails. -/
theorem velocity_bounded_up_to_rounding_witness :
    RoundSpec (2 ^ (-53 : ℤ)) fl64 sqrt64 ∧
    Vec.magSq (Rounded.Creature.update fl64 sqrt64 100 100
        (⟨⟨10, 10⟩, ⟨3 / 2, 2⟩, ⟨3 / 2, 2⟩, ⟨7 / 2, 1 / 4, 100, 1 / 256⟩, 1⟩ :
          Creature ℚ)).vel * (1 - 2 ^ (-53 : ℤ)) ^ 4
      ≤ (7 / 2 : ℚ) * (7 / 2) * (1 + 2 ^ (-53 : ℤ)) ^ 4 :=
  ⟨roundSpec64,
    (velocity_bounded_up_to_rounding (2 ^ (-53 : ℤ)) fl64 sqrt64 roundSpec64 sqrt64 100 100
      (⟨⟨10, 10⟩, ⟨3 / 2, 2⟩, ⟨3 / 2, 2⟩, ⟨7 / 2, 1 / 4, 100, 1 / 256⟩, 1⟩ : Creature ℚ)
      ⟨⟨50, 0⟩, ⟨1, 0⟩, ⟨0, 0⟩, 3, 1 / 4, 10, 1⟩
      ⟨1 / 2, 0, 0, fun _ => ⟨1 / 2, 0, 0, 0, 0, ⟨⟨1, 0⟩, 0, 0, 0, 0⟩⟩⟩
      ⟨[], [], []⟩).1.1⟩

end RoundedVelocity
end Sketch

namespace Sketch
section RoundedCounterexamples

/-- In double-precision arithmetic the velocity bound of claim C3 fails after
`update` itself: a creature with velocity `(1.5, 2)`, acceleration `(1.5, 2)` and
`maxSpeed = 3.5` ends `update` with velocity `(2.1, 2.8000000000000003)`, whose
squared magnitude exceeds `maxSpeed * maxSpeed` and whose magnitude as `mag()`
computes it is `3.5000000000000004`. -/
theorem update_exceeds_maxSpeed_in_doubles :
    (Rounded.Creature.update fl64 sqrt64 100 100
        (⟨⟨10, 10⟩, ⟨3 / 2, 2⟩, ⟨3 / 2, 2⟩, ⟨7 / 2, 1 / 4, 100, 1 / 256⟩, 1⟩ : Creature ℚ)).vel
      = ⟨4728779608739021 / 2251799813685248, 6305039478318695 / 2251799813685248⟩ ∧
    ((7 / 2 : ℚ) * (7 / 2)
      < Vec.magSq (⟨4728779608739021 / 2251799813685248, 6305039478318695 / 2251799813685248⟩ : Vec ℚ)) ∧
    Rounded.Vec.mag fl64 sqrt64
        (⟨4728779608739021 / 2251799813685248, 6305039478318695 / 2251799813685248⟩ : Vec ℚ)
      = 7881299347898369 / 2251799813685248 ∧
    ((7 / 2 : ℚ) < 7881299347898369 / 2251799813685248) := by
  have g0 : fl64 (3 : ℚ) = (3 : ℚ) := by
    rw [fl64_eq_pos (3 : ℚ) 6755399441055744 (-51)
      (by norm_num) (by norm_num) (by norm_num) (by norm_num)]
    norm_num
  have g1 : fl64 (4 : ℚ) = (4 : ℚ) := by
    rw [fl64_eq_pos (4 : ℚ) 4503599627370496 (-50)
      (by norm_num) (by norm_num) (by norm_num) (by norm_num)]
    norm_num
  have g2 : fl64 (9 : ℚ) = (9 : ℚ) := by
    rw [fl64_eq_pos (9 : ℚ) 5066549580791808 (-49)
      (by norm_num) (by norm_num) (by norm_num) (by norm_num)]
    norm_num
  have g3 : fl64 (16 : ℚ) = (16 : ℚ) := by
    rw [fl64_eq_pos (16 : ℚ) 4503599627370496 (-48)
      (by norm_num) (by norm_num) (by norm_num) (by norm_num)]
    norm_num
  have g4 : fl64 (25 : ℚ) = (25 : ℚ) := by
    rw [fl64_eq_pos (25 : ℚ) 7036874417766400 (-48)
      (by norm_num) (by norm_num) (by norm_num) (by norm_num)]
    norm_num
  have g5 : fl64 (49 / 4 : ℚ) = (49 / 4 : ℚ) := by
    rw [fl64_eq_pos (49 / 4 : ℚ) 6896136929411072 (-49)
      (by norm_num) (by norm_num) (by norm_num) (by norm_num)]
    norm_num
  have g6 : sqrt64 (25 : ℚ) = (5 : ℚ) := by
    rw [sqrt64_eq_down (25 : ℚ) 5629499534213120 (-50)
      (by norm_num) (by norm_num) (by norm_num) (by norm_num)]
    norm_num
  have g7 : fl64 (3 / 5 : ℚ) = (5404319552844595 / 9007199254740992 : ℚ) := by
    rw [fl64_eq_pos (3 / 5 : ℚ) 5404319552844595 (-53)
      (by norm_num) (by norm_num) (by norm_num) (by norm_num)]
    norm_num
  have g8 : fl64 (4 / 5 : ℚ) = (3602879701896397 / 4503599627370496 : ℚ) := by
    rw [fl64_eq_pos (4 / 5 : ℚ) 7205759403792794 (-53)
      (by norm_num) (by norm_num) (by norm_num) (by norm_num)]
    norm_num
  have g9 : fl64 (37830236869912165 / 18014398509481984 : ℚ) = (4728779608739021 / 2251799813685248 : ℚ) := by
    rw [fl64_eq_pos (37830236869912165 / 18014398509481984 : ℚ) 4728779608739021 (-51)
      (by norm_num) (by norm_num) (by norm_num) (by norm_num)]
    norm_num
  have g10 : fl64 (25220157913274779 / 9007199254740992 : ℚ) = (6305039478318695 / 2251799813685248 : ℚ) := by
    rw [fl64_eq_pos (25220157913274779 / 9007199254740992 : ℚ) 6305039478318695 (-51)
      (by norm_num) (by norm_num) (by norm_num) (by norm_num)]
    norm_num
  have g11 : fl64 (22361356588025968533913688038441 / 5070602400912917605986812821504 : ℚ) = (1241304647293993 / 281474976710656 : ℚ) := by
    rw [fl64_eq_pos (22361356588025968533913688038441 / 5070602400912917605986812821504 : ℚ) 4965218589175972 (-50)
      (by norm_num) (by norm_num) (by norm_num) (by norm_num)]
    norm_num
  have g12 : fl64 (39753522823157281596983986503025 / 5070602400912917605986812821504 : ℚ) = (4413527634823087 / 562949953421312 : ℚ) := by
    rw [fl64_eq_pos (39753522823157281596983986503025 / 5070602400912917605986812821504 : ℚ) 8827055269646174 (-50)
      (by norm_num) (by norm_num) (by norm_num) (by norm_num)]
    norm_num
  have g13 : fl64 (6896136929411073 / 562949953421312 : ℚ) = (6896136929411073 / 562949953421312 : ℚ) := by
    rw [fl64_eq_pos (6896136929411073 / 562949953421312 : ℚ) 6896136929411073 (-49)
      (by norm_num) (by norm_num) (by norm_num) (by norm_num)]
    norm_num
  have g14 : sqrt64 (6896136929411073 / 562949953421312 : ℚ) = (7881299347898369 / 2251799813685248 : ℚ) := by
    rw [sqrt64_eq_up (6896136929411073 / 562949953421312 : ℚ) 7881299347898368 (-51)
      (by norm_num) (by norm_num) (by norm_num) (by norm_num)]
    norm_num
  refine ⟨?_, ?_, ?_, ?_⟩
  · simp only [Rounded.Creature.update, Creature.edges, Rounded.Vec.add, Rounded.Vec.magSq,
      Rounded.Vec.mult, Rounded.Vec.limit, Rounded.Vec.div]
    norm_num [g0, g1, g2, g3, g4, g5, g6, g7, g8, g9, g10, g11, g12, g13, g14]
  · norm_num [Vec.magSq]
  · simp only [Rounded.Vec.mag, Rounded.Vec.magSq]
    norm_num [g0, g1, g2, g3, g4, g5, g6, g7, g8, g9, g10, g11, g12, g13, g14]
  · norm_num

end RoundedCounterexamples
end Sketch

namespace Sketch
section HuntSeek
variable {α : Type} [LinearOrderedField α]

theorem Vec.setMag_eq_mult_pos {sqrt : α → α} (hs : SqrtSpec sqrt) (v : Vec α) (n : α)
    (hn : 0 < n) : ∃ t : α, 0 < t ∧ Vec.setMag sqrt v n = Vec.mult v t := by
  by_cases h : Vec.mag sqrt v = 0
  · refine ⟨n, hn, ?_⟩
    simp [Vec.setMag, Vec.normalize, h]
  · have hpos : 0 < Vec.mag sqrt v := lt_of_le_of_ne (Vec.mag_nonneg hs v) (Ne.symm h)
    refine ⟨1 / Vec.mag sqrt v * n, mul_pos (div_pos zero_lt_one hpos) hn, ?_⟩
    simp only [Vec.setMag, Vec.normalize, h, ne_eq, not_false_eq_true, if_true, Vec.mult,
      mul_assoc]

/-- Claim C11: on a non-empty creature list `Predator.hunt` picks a creature `q`
at minimal distance, at index `j`; if that distance is below 5 it removes index
`j`, adds 0.5 to health and leaves the acceleration alone; otherwise it removes
nothing, leaves health alone and adds the seek force toward `q` to the
acceleration, with no test on how far `q` is. The seek force is the difference
between the desired velocity and the predator's velocity, limited to `maxForce`,
and the desired velocity points from the predator to `q`: for a positive
`maxSpeed` it is a positive multiple of (position of `q` - predator position). -/
theorem hunt_eats_or_seeks_nearest (sqrt : α → α) (p : Predator α)
    (creatures : List (Creature α)) (hne : creatures ≠ []) :
    ∃ (j : Nat) (q : Creature α), creatures[j]? = some q ∧
      (∀ t ∈ creatures, Vec.dist sqrt p.pos q.pos ≤ Vec.dist sqrt p.pos t.pos) ∧
      p.hunt sqrt creatures =
        (if Vec.dist sqrt p.pos q.pos < 5 then
          ({ p with health := p.health + 0.5 }, creatures.eraseIdx j)
        else ({ p with acc := Vec.add p.acc (p.seek sqrt q) }, creatures)) ∧
      p.seek sqrt q =
        Vec.limit sqrt
          (Vec.sub (Vec.setMag sqrt (Vec.sub q.pos p.pos) p.maxSpeed) p.vel) p.maxForce ∧
      (SqrtSpec sqrt → 0 < p.maxSpeed →
        ∃ t : α, 0 < t ∧
          Vec.setMag sqrt (Vec.sub q.pos p.pos) p.maxSpeed = Vec.mult (Vec.sub q.pos p.pos) t) := by
  obtain ⟨j, q, hq, _, _, hmin, hh⟩ := Predator.hunt_nearest sqrt p creatures hne
  refine ⟨j, q, hq, ?_, hh, rfl, fun hs hpos => Vec.setMag_eq_mult_pos hs _ _ hpos⟩
  intro t ht
  obtain ⟨k, hk⟩ := List.getElem?_of_mem ht
  exact (hmin k t hk).1

/-- Instance of `hunt_eats_or_seeks_nearest` over the real numbers: a predator at
rest at `(50, 0)` and one creature at the origin, 50 away: nothing is removed,
and the acceleration gained is `(-1/4, 0)`, pointing from the predator to the
creature. -/
theorem hunt_eats_or_seeks_nearest_witness :
    [(⟨⟨0, 0⟩, ⟨1, 0⟩, ⟨0, 0⟩, ⟨3, 1 / 5, 100, 1 / 1000⟩, 1⟩ : Creature ℝ)] ≠ [] ∧
    (⟨⟨50, 0⟩, ⟨0, 0⟩, ⟨0, 0⟩, 3, 1 / 4, 10, 1⟩ : Predator ℝ).hunt Real.sqrt
        [⟨⟨0, 0⟩, ⟨1, 0⟩, ⟨0, 0⟩, ⟨3, 1 / 5, 100, 1 / 1000⟩, 1⟩]
      = (⟨⟨50, 0⟩, ⟨0, 0⟩, ⟨-1 / 4, 0⟩, 3, 1 / 4, 10, 1⟩,
          [⟨⟨0, 0⟩, ⟨1, 0⟩, ⟨0, 0⟩, ⟨3, 1 / 5, 100, 1 / 1000⟩, 1⟩]) := by
  have hne : [(⟨⟨0, 0⟩, ⟨1, 0⟩, ⟨0, 0⟩, ⟨3, 1 / 5, 100, 1 / 1000⟩, 1⟩ : Creature ℝ)] ≠ [] := by
    simp
  refine ⟨hne, ?_⟩
  obtain ⟨j, q, hq, _, hh, hseek, _⟩ :=
    hunt_eats_or_seeks_nearest Real.sqrt
      (⟨⟨50, 0⟩, ⟨0, 0⟩, ⟨0, 0⟩, 3, 1 / 4, 10, 1⟩ : Predator ℝ)
      [⟨⟨0, 0⟩, ⟨1, 0⟩, ⟨0, 0⟩, ⟨3, 1 / 5, 100, 1 / 1000⟩, 1⟩] hne
  have hj : j < 1 := (List.getElem?_eq_some.mp hq).1
  have hj0 : j = 0 := by omega
  subst hj0
  have hq0 : q = ⟨⟨0, 0⟩, ⟨1, 0⟩, ⟨0, 0⟩, ⟨3, 1 / 5, 100, 1 / 1000⟩, 1⟩ := by
    simpa using hq.symm
  subst hq0
  have h2500 : Real.sqrt 2500 = 50 := by
    rw [show (2500 : ℝ) = 50 ^ 2 by norm_num]
    exact Real.sqrt_sq (by norm_num)
  have h9 : Real.sqrt 9 = 3 := by
    rw [show (9 : ℝ) = 3 ^ 2 by norm_num]
    exact Real.sqrt_sq (by norm_num)
  have hfar : ¬ Vec.dist Real.sqrt (⟨50, 0⟩ : Vec ℝ) ⟨0, 0⟩ < 5 := by
    norm_num [Vec.dist, Vec.mag, Vec.magSq, Vec.sub, h2500]
  rw [hh, hseek]
  simp only [hfar, if_false]
  norm_num [Vec.limit, Vec.sub, Vec.setMag, Vec.normalize, Vec.mag, Vec.magSq, Vec.mult,
    Vec.div, Vec.add, h2500, h9]

end HuntSeek
end Sketch

namespace Sketch
section RoundedIsExact
variable {α : Type} [LinearOrderedField α]

theorem rounded_with_id (sqrt : α → α) (width height : α) (c : Creature α) (p : Predator α)
    (v target : Vec α) (m : α) (prey : Creature α) (d : Draws α) :
    Rounded.Vec.limit id sqrt v m = Vec.limit sqrt v m ∧
    Rounded.Creature.seek id sqrt c target = c.seek sqrt target ∧
    Rounded.Predator.seek id sqrt p prey = p.seek sqrt prey ∧
    (Rounded.Creature.update id sqrt width height c).vel = (c.update sqrt width height).vel ∧
    (Rounded.Predator.update id sqrt width height p).vel = (p.update sqrt width height).vel ∧
    (Rounded.Creature.reproduce id c d).2.dna = (c.reproduce d).2.dna :=
  ⟨rfl, rfl, rfl, rfl, rfl, rfl⟩

end RoundedIsExact
end Sketch
